import Mathlib

/-!
Verification of the agsys-control leader-side OTA core.

The definitions below are a shallow embedding of the Python sources:
  * `src/leader/src/protocol.py`    — packet codec (header pack/parse, chunk building)
  * `src/leader/src/ota_manager.py` — OTA session state machine
  * `src/devices/common/scripts/patch_app_header.py` — application-header patch tool

Bytes are modelled as `Nat` (with the hypothesis `< 256` where it matters),
byte strings as `List Nat`, machine integers as `Nat`/`Int` with explicit
bounds, and fallible operations as `Option`/`Except`.
-/

set_option maxRecDepth 10000

namespace AgSys

/-! ## Constants (ota_manager.py lines 27-30) -/

def OTA_CHUNK_SIZE : Nat := 200
def OTA_ANNOUNCE_INTERVAL_SEC : Nat := 30
def OTA_CHUNK_TIMEOUT_SEC : Nat := 10
def OTA_MAX_RETRIES : Nat := 5

/-! ## Firmware chunking

`start_update` computes `total_chunks = (firmware_size + OTA_CHUNK_SIZE - 1) // OTA_CHUNK_SIZE`
(ota_manager.py line 124).  `_send_chunk` slices
`firmware_data[start:end]` with `start = chunk_index * OTA_CHUNK_SIZE` and
`end = min(start + OTA_CHUNK_SIZE, firmware_size)` (ota_manager.py lines 434-436).
-/

def totalChunksOf (firmwareSize : Nat) : Nat :=
  (firmwareSize + OTA_CHUNK_SIZE - 1) / OTA_CHUNK_SIZE

/-- The data slice of chunk `i`: `firmware_data[start:end]` with
    `start = i*200`, `end = min(start + 200, firmware_size)`
    (ota_manager.py `_send_chunk`, lines 434-436).  A Python slice `l[a:b]`
    with `0 ≤ a ≤ b ≤ len(l)` is `(l.drop a).take (b - a)`. -/
def chunkData (fw : List Nat) (i : Nat) : List Nat :=
  (fw.drop (i * OTA_CHUNK_SIZE)).take
    (min (i * OTA_CHUNK_SIZE + OTA_CHUNK_SIZE) fw.length - i * OTA_CHUNK_SIZE)

/-- The list of all chunk slices of a firmware buffer, in index order. -/
def allChunks (fw : List Nat) : List (List Nat) :=
  (List.range (totalChunksOf fw.length)).map (chunkData fw)

theorem chunkData_eq_take (fw : List Nat) (i : Nat) :
    chunkData fw i = (fw.drop (i * OTA_CHUNK_SIZE)).take OTA_CHUNK_SIZE := by
  unfold chunkData
  rw [List.take_eq_take]
  rw [List.length_drop]
  simp only [OTA_CHUNK_SIZE]
  omega

theorem chunkData_zero (fw : List Nat) : chunkData fw 0 = fw.take OTA_CHUNK_SIZE := by
  rw [chunkData_eq_take]
  simp

theorem chunkData_succ (fw : List Nat) (i : Nat) :
    chunkData fw (i + 1) = chunkData (fw.drop OTA_CHUNK_SIZE) i := by
  rw [chunkData_eq_take, chunkData_eq_take, List.drop_drop]
  congr 1
  ring_nf

theorem totalChunksOf_zero_iff (n : Nat) : totalChunksOf n = 0 ↔ n = 0 := by
  simp only [totalChunksOf, OTA_CHUNK_SIZE]
  omega

theorem join_range_chunks :
    ∀ (n : Nat) (fw : List Nat), totalChunksOf fw.length = n →
      ((List.range n).map (chunkData fw)).flatten = fw := by
  intro n
  induction n with
  | zero =>
    intro fw h
    have hlen : fw.length = 0 := (totalChunksOf_zero_iff fw.length).mp h
    simp [List.length_eq_zero.mp hlen]
  | succ n ih =>
    intro fw h
    rw [List.range_succ_eq_map, List.map_cons, List.map_map, List.flatten_cons]
    have hmap : ((List.range n).map (chunkData fw ∘ Nat.succ)).flatten
        = ((List.range n).map (chunkData (fw.drop OTA_CHUNK_SIZE))).flatten := by
      congr 1
      apply List.map_congr_left
      intro i _
      simp only [Function.comp_apply, Nat.succ_eq_add_one]
      exact chunkData_succ fw i
    rw [hmap, chunkData_zero]
    have hrest : totalChunksOf (fw.drop OTA_CHUNK_SIZE).length = n := by
      rw [List.length_drop]
      simp only [totalChunksOf, OTA_CHUNK_SIZE] at h ⊢
      omega
    rw [ih (fw.drop OTA_CHUNK_SIZE) hrest]
    exact List.take_append_drop OTA_CHUNK_SIZE fw

/-- C1: for every firmware buffer, each chunk slice is exactly
    `F[i*200 : min((i+1)*200, |F|)]` (written here in Python's
    take-then-drop reading of `F[a:b]`), and concatenating chunks
    `0 .. total_chunks - 1` in order reconstructs the firmware exactly. -/
theorem c1_chunk_reconstruction (fw : List Nat) :
    (∀ i, i < totalChunksOf fw.length →
      chunkData fw i
        = (fw.take (min ((i + 1) * OTA_CHUNK_SIZE) fw.length)).drop (i * OTA_CHUNK_SIZE))
    ∧ (allChunks fw).flatten = fw := by
  constructor
  · intro i _
    rw [chunkData_eq_take, List.drop_take]
    rw [List.take_eq_take, List.length_drop]
    simp only [OTA_CHUNK_SIZE]
    omega
  · exact join_range_chunks (totalChunksOf fw.length) fw rfl

/-- Witness for C1 at a concrete 450-byte firmware (3 chunks, the spec's S1
    scenario size): instantiates the bounded chunk-slice equation at i = 2. -/
theorem c1_chunk_reconstruction_witness :
    2 < totalChunksOf (List.replicate 450 7 : List Nat).length ∧
      chunkData (List.replicate 450 7) 2
        = ((List.replicate 450 7 : List Nat).take
            (min ((2 + 1) * OTA_CHUNK_SIZE) (List.replicate 450 7 : List Nat).length)).drop
            (2 * OTA_CHUNK_SIZE) :=
  ⟨by decide, (c1_chunk_reconstruction (List.replicate 450 7)).1 2 (by decide)⟩

/-! ## OTA session state machine (ota_manager.py)

Mutexes and threads are elided: every handler is modelled as a sequential
state transformer on the session.  Each transformer also returns the list of
chunk indices it hands to the radio (`_send_chunk` builds and transmits a
packet for the index before recording `last_chunk_sent`).
-/

inductive DeviceOtaState where
  | unknown
  | announced
  | requested
  | receiving
  | complete
  | error
deriving DecidableEq, Repr

/-- `DeviceOtaInfo` (ota_manager.py lines 43-53), with the dataclass defaults. -/
structure DeviceOtaInfo where
  uuid : List Nat := []
  state : DeviceOtaState := .unknown
  currentVersion : Nat × Nat × Nat := (0, 0, 0)
  lastChunkSent : Int := -1
  lastChunkAcked : Int := -1
  retryCount : Nat := 0
  lastActivity : Nat := 0
  errorMessage : String := ""
deriving DecidableEq, Repr

/-- `OtaSession` (ota_manager.py lines 56-69).  The `devices` dict is an
    association list keyed by the uuid hex string, in insertion order. -/
structure OtaSession where
  announceId : Nat
  targetDeviceType : Nat := 0xFF
  firmwarePath : String := ""
  firmwareData : List Nat := []
  firmwareSize : Nat := 0
  firmwareCrc : Nat := 0
  version : Nat × Nat × Nat := (0, 0, 0)
  totalChunks : Nat := 0
  devices : List (String × DeviceOtaInfo) := []
  startTime : Nat := 0
  isActive : Bool := false
deriving DecidableEq, Repr

/-- Dict lookup `self.session.devices[uuid_str]` / `uuid_str in self.session.devices`. -/
def lookupDev : List (String × DeviceOtaInfo) → String → Option DeviceOtaInfo
  | [], _ => none
  | p :: rest, k => if p.1 = k then p.2 else lookupDev rest k

/-- In-place mutation of the record stored under key `k` (a no-op when the key
    is absent, matching `_send_chunk`'s `if uuid_str in self.session.devices`). -/
def updateDev (ds : List (String × DeviceOtaInfo)) (k : String)
    (f : DeviceOtaInfo → DeviceOtaInfo) : List (String × DeviceOtaInfo) :=
  ds.map (fun p => if p.1 = k then (p.1, f p.2) else p)

/-- `OtaRequest` payload fields (protocol.py lines 160-175). -/
structure OtaRequest where
  announceId : Nat
  currentVersionMajor : Nat
  currentVersionMinor : Nat
  currentVersionPatch : Nat
  lastChunkReceived : Nat
deriving DecidableEq, Repr

/-- `OtaChunkAck` payload fields (protocol.py lines 201-214), also used for NACKs. -/
structure OtaChunkAck where
  announceId : Nat
  chunkIndex : Nat
  status : Nat
deriving DecidableEq, Repr

/-- `OtaComplete` payload fields (protocol.py lines 217-230). -/
structure OtaComplete where
  announceId : Nat
  calculatedCrc : Nat
  status : Nat
deriving DecidableEq, Repr

/-- `_send_chunk` (ota_manager.py lines 428-449): nothing happens for an
    out-of-range index; otherwise the chunk packet is transmitted and
    `last_chunk_sent` is recorded for the device (if still tracked). -/
def sendChunk (s : OtaSession) (uuid : String) (i : Int) : OtaSession × List Int :=
  if (s.totalChunks : Int) ≤ i then (s, [])
  else ({ s with devices := updateDev s.devices uuid (fun d => { d with lastChunkSent := i }) },
        [i])

/-- `_handle_request` (ota_manager.py lines 278-314), after the payload has
    been parsed, including the `handle_message` activity gate (lines 173-174). -/
def handleRequest (s : OtaSession) (uuid : String) (uuidBytes : List Nat)
    (req : OtaRequest) (now : Nat) : OtaSession × List Int :=
  if s.isActive then
    if req.announceId = s.announceId then
      let ds0 := match lookupDev s.devices uuid with
        | some _ => s.devices
        | none => s.devices ++ [(uuid, { uuid := uuidBytes })]
      let startChunk : Nat := if req.lastChunkReceived = 0xFFFF then 0
        else req.lastChunkReceived + 1
      let ds1 := updateDev ds0 uuid (fun d =>
        { d with
          currentVersion := (req.currentVersionMajor, req.currentVersionMinor,
            req.currentVersionPatch),
          state := .requested,
          lastActivity := now,
          lastChunkAcked := (startChunk : Int) - 1 })
      sendChunk { s with devices := ds1 } uuid (startChunk : Int)
    else (s, [])
  else (s, [])

/-- `_handle_chunk_ack` (ota_manager.py lines 316-351): a status-0 ACK
    unconditionally overwrites `last_chunk_acked` with the ACK's index. -/
def handleChunkAck (s : OtaSession) (uuid : String) (ack : OtaChunkAck)
    (now : Nat) : OtaSession × List Int :=
  if s.isActive then
    if ack.announceId = s.announceId then
      match lookupDev s.devices uuid with
      | none => (s, [])
      | some _ =>
        if ack.status = 0 then
          let s1 := { s with devices := updateDev s.devices uuid (fun d =>
            { d with lastChunkAcked := (ack.chunkIndex : Int), state := .receiving,
                     lastActivity := now, retryCount := 0 }) }
          if ack.chunkIndex + 1 < s.totalChunks then
            sendChunk s1 uuid ((ack.chunkIndex : Int) + 1)
          else (s1, [])
        else (s, [])
    else (s, [])
  else (s, [])

/-- `_handle_chunk_nack` (ota_manager.py lines 353-376). -/
def handleChunkNack (s : OtaSession) (uuid : String) (ack : OtaChunkAck)
    (now : Nat) : OtaSession × List Int :=
  if s.isActive then
    if ack.announceId = s.announceId then
      match lookupDev s.devices uuid with
      | none => (s, [])
      | some d =>
        if OTA_MAX_RETRIES < d.retryCount + 1 then
          ({ s with devices := updateDev s.devices uuid (fun d0 =>
              { d0 with lastActivity := now, retryCount := d0.retryCount + 1,
                        state := .error, errorMessage := "Max retries exceeded" }) }, [])
        else
          sendChunk
            { s with devices := updateDev s.devices uuid (fun d0 =>
                { d0 with lastActivity := now, retryCount := d0.retryCount + 1 }) }
            uuid (ack.chunkIndex : Int)
    else (s, [])
  else (s, [])

/-- `d.state in (COMPLETE, ERROR)` (ota_manager.py line 496). -/
def isTerminal (d : DeviceOtaInfo) : Bool :=
  match d.state with
  | .complete => true
  | .error => true
  | _ => false

/-- The session-complete predicate of `_check_session_complete`
    (ota_manager.py lines 495-500): every device terminal and at least one device. -/
def sessionDone (s : OtaSession) : Bool :=
  s.devices.all (fun p => isTerminal p.2) && decide (0 < s.devices.length)

/-- `_check_session_complete` (ota_manager.py lines 490-518), state part only. -/
def checkSessionComplete (s : OtaSession) : OtaSession :=
  if sessionDone s then { s with isActive := false } else s

/-- `_handle_complete` (ota_manager.py lines 378-405). -/
def handleComplete (s : OtaSession) (uuid : String) (c : OtaComplete)
    (now : Nat) : OtaSession × List Int :=
  if s.isActive then
    if c.announceId = s.announceId then
      match lookupDev s.devices uuid with
      | none => (s, [])
      | some _ =>
        let ds := updateDev s.devices uuid (fun d =>
          if c.status = 0 then { d with lastActivity := now, state := .complete }
          else { d with lastActivity := now, state := .error, errorMessage := "CRC mismatch" })
        (checkSessionComplete { s with devices := ds }, [])
    else (s, [])
  else (s, [])

/-- One device's share of `_check_timeouts` (ota_manager.py lines 472-488),
    with the inlined effect of its `_send_chunk` call. -/
def timeoutDevice (total : Nat) (now : Nat) (d : DeviceOtaInfo) : DeviceOtaInfo × List Int :=
  if (d.state = .requested ∨ d.state = .receiving)
      ∧ OTA_CHUNK_TIMEOUT_SEC < now - d.lastActivity then
    if OTA_MAX_RETRIES < d.retryCount + 1 then
      ({ d with retryCount := d.retryCount + 1, state := .error, errorMessage := "Timeout" }, [])
    else
      let chunk : Int := d.lastChunkAcked + 1
      if chunk < (total : Int) then
        ({ d with retryCount := d.retryCount + 1, lastActivity := now,
                  lastChunkSent := chunk }, [chunk])
      else ({ d with retryCount := d.retryCount + 1 }, [])
  else (d, [])

/-- `_check_timeouts` (ota_manager.py lines 465-488); the announce loop runs it
    only while the session is active (line 247). -/
def checkTimeouts (s : OtaSession) (now : Nat) : OtaSession × List Int :=
  if s.isActive then
    ({ s with devices := s.devices.map (fun p => (p.1, (timeoutDevice s.totalChunks now p.2).1)) },
     (s.devices.map (fun p => (timeoutDevice s.totalChunks now p.2).2)).flatten)
  else (s, [])

/-- One device's share of `_process_pending_chunks` (ota_manager.py lines 456-463). -/
def pendingDevice (total : Nat) (d : DeviceOtaInfo) : DeviceOtaInfo × List Int :=
  if d.state = .receiving then
    let nextChunk : Int := d.lastChunkAcked + 1
    if nextChunk < (total : Int) then
      if d.lastChunkSent < nextChunk then ({ d with lastChunkSent := nextChunk }, [nextChunk])
      else (d, [])
    else (d, [])
  else (d, [])

/-- `_process_pending_chunks` (ota_manager.py lines 451-463), run by the
    announce loop while the session is active. -/
def processPendingChunks (s : OtaSession) : OtaSession × List Int :=
  if s.isActive then
    ({ s with devices := s.devices.map (fun p => (p.1, (pendingDevice s.totalChunks p.2).1)) },
     (s.devices.map (fun p => (pendingDevice s.totalChunks p.2).2)).flatten)
  else (s, [])

/-- `stop_update` (ota_manager.py lines 152-166), state part: broadcast the
    abort and flip `is_active`. -/
def stopUpdate (s : OtaSession) : OtaSession × List Int :=
  ({ s with isActive := false }, [])

/-- The session operations a running manager can perform: the four incoming
    OTA message handlers, the two maintenance passes, and `stop_update`. -/
inductive Event where
  | request (uuid : String) (uuidBytes : List Nat) (req : OtaRequest) (now : Nat)
  | chunkAck (uuid : String) (ack : OtaChunkAck) (now : Nat)
  | chunkNack (uuid : String) (ack : OtaChunkAck) (now : Nat)
  | complete (uuid : String) (c : OtaComplete) (now : Nat)
  | timeoutSweep (now : Nat)
  | pendingSweep
  | stop
deriving DecidableEq, Repr

def step : Event → OtaSession → OtaSession × List Int
  | .request uuid ub req now, s => handleRequest s uuid ub req now
  | .chunkAck uuid ack now, s => handleChunkAck s uuid ack now
  | .chunkNack uuid ack now, s => handleChunkNack s uuid ack now
  | .complete uuid c now, s => handleComplete s uuid c now
  | .timeoutSweep now, s => checkTimeouts s now
  | .pendingSweep, s => processPendingChunks s
  | .stop, s => stopUpdate s

def stepS (e : Event) (s : OtaSession) : OtaSession := (step e s).1

def runEvents (es : List Event) (s : OtaSession) : OtaSession :=
  es.foldl (fun s e => stepS e s) s


/-! ## Lemmas about the devices association list -/

theorem lookupDev_updateDev_self (ds : List (String × DeviceOtaInfo)) (k : String)
    (f : DeviceOtaInfo → DeviceOtaInfo) :
    lookupDev (updateDev ds k f) k = (lookupDev ds k).map f := by
  induction ds with
  | nil => rfl
  | cons p rest ih =>
    simp only [updateDev, List.map_cons] at ih ⊢
    by_cases h : p.1 = k
    · simp [lookupDev, h]
    · simp only [h, if_false, lookupDev]
      exact ih

theorem updateDev_updateDev (ds : List (String × DeviceOtaInfo)) (k : String)
    (f g : DeviceOtaInfo → DeviceOtaInfo) :
    updateDev (updateDev ds k f) k g = updateDev ds k (fun d => g (f d)) := by
  unfold updateDev
  rw [List.map_map]
  apply List.map_congr_left
  intro p _
  by_cases h : p.1 = k <;> simp [h]

theorem mem_updateDev {ds : List (String × DeviceOtaInfo)} {k : String}
    {f : DeviceOtaInfo → DeviceOtaInfo} {p : String × DeviceOtaInfo}
    (h : p ∈ updateDev ds k f) : ∃ q ∈ ds, p = q ∨ p = (q.1, f q.2) := by
  obtain ⟨q, hq, hqe⟩ := List.mem_map.mp h
  refine ⟨q, hq, ?_⟩
  by_cases hk : q.1 = k
  · rw [if_pos hk] at hqe
    right
    exact hqe.symm
  · rw [if_neg hk] at hqe
    left
    exact hqe.symm

/-! ## C2: per-device bounds invariant -/

/-- The bounds that actually hold for every tracked device (the amended C2):
    `-1 ≤ last_chunk_acked`, `-1 ≤ last_chunk_sent < total_chunks`. -/
def DevInv (total : Nat) (d : DeviceOtaInfo) : Prop :=
  -1 ≤ d.lastChunkAcked ∧ -1 ≤ d.lastChunkSent ∧ d.lastChunkSent < (total : Int)

/-- The spec's claimed per-device invariant
    `-1 ≤ last_chunk_acked ≤ last_chunk_sent < total_chunks`. -/
def ClaimedDevInv (total : Nat) (d : DeviceOtaInfo) : Prop :=
  -1 ≤ d.lastChunkAcked ∧ d.lastChunkAcked ≤ d.lastChunkSent
    ∧ d.lastChunkSent < (total : Int)

def SessionInv (s : OtaSession) : Prop := ∀ p ∈ s.devices, DevInv s.totalChunks p.2

instance (total : Nat) (d : DeviceOtaInfo) : Decidable (DevInv total d) := by
  unfold DevInv; infer_instance

instance (total : Nat) (d : DeviceOtaInfo) : Decidable (ClaimedDevInv total d) := by
  unfold ClaimedDevInv; infer_instance

instance (s : OtaSession) : Decidable (SessionInv s) := by
  unfold SessionInv; infer_instance

theorem updateDev_inv {total : Nat} {ds : List (String × DeviceOtaInfo)} {k : String}
    {f : DeviceOtaInfo → DeviceOtaInfo}
    (h : ∀ p ∈ ds, DevInv total p.2)
    (hf : ∀ d, DevInv total d → DevInv total (f d)) :
    ∀ p ∈ updateDev ds k f, DevInv total p.2 := by
  intro p hp
  obtain ⟨q, hq, hcase⟩ := mem_updateDev hp
  rcases hcase with rfl | rfl
  · exact h _ hq
  · exact hf _ (h _ hq)

theorem sendChunk_inv {s : OtaSession} {uuid : String} {i : Int}
    (h : SessionInv s) (hi : -1 ≤ i) : SessionInv (sendChunk s uuid i).1 := by
  unfold sendChunk
  split
  · exact h
  · rename_i hlt
    simp only [SessionInv]
    refine updateDev_inv h (fun d hd => ?_)
    simp only [DevInv] at hd ⊢
    omega

theorem handleRequest_inv {s : OtaSession} {uuid : String} {ub : List Nat}
    {req : OtaRequest} {now : Nat} (h : SessionInv s) :
    SessionInv (handleRequest s uuid ub req now).1 := by
  unfold handleRequest
  split
  · split
    · apply sendChunk_inv ?_ (by omega)
      simp only [SessionInv]
      refine updateDev_inv ?_ (fun d hd => ?_)
      · split
        · exact h
        · intro q hq
          simp only [List.mem_append, List.mem_singleton] at hq
          rcases hq with hq | rfl
          · exact h q hq
          · simp only [DevInv]
            refine ⟨by omega, by omega, by omega⟩
      · simp only [DevInv] at hd ⊢
        refine ⟨by omega, hd.2.1, hd.2.2⟩
    · exact h
  · exact h

theorem handleChunkAck_inv {s : OtaSession} {uuid : String} {ack : OtaChunkAck}
    {now : Nat} (h : SessionInv s) : SessionInv (handleChunkAck s uuid ack now).1 := by
  unfold handleChunkAck
  split
  · split
    · split
      · exact h
      · split
        · split
          · apply sendChunk_inv ?_ (by omega)
            simp only [SessionInv]
            refine updateDev_inv h (fun d hd => ?_)
            simp only [DevInv] at hd ⊢
            omega
          · simp only [SessionInv]
            refine updateDev_inv h (fun d hd => ?_)
            simp only [DevInv] at hd ⊢
            omega
        · exact h
    · exact h
  · exact h

theorem handleChunkNack_inv {s : OtaSession} {uuid : String} {ack : OtaChunkAck}
    {now : Nat} (h : SessionInv s) : SessionInv (handleChunkNack s uuid ack now).1 := by
  unfold handleChunkNack
  split
  · split
    · split
      · exact h
      · split
        · simp only [SessionInv]
          refine updateDev_inv h (fun d hd => ?_)
          simp only [DevInv] at hd ⊢
          omega
        · apply sendChunk_inv ?_ (by omega)
          simp only [SessionInv]
          refine updateDev_inv h (fun d hd => ?_)
          simp only [DevInv] at hd ⊢
          omega
    · exact h
  · exact h

theorem checkSessionComplete_devices (s : OtaSession) :
    (checkSessionComplete s).devices = s.devices ∧
      (checkSessionComplete s).totalChunks = s.totalChunks := by
  unfold checkSessionComplete
  split <;> exact ⟨rfl, rfl⟩

theorem checkSessionComplete_inv {s : OtaSession} (h : SessionInv s) :
    SessionInv (checkSessionComplete s) := by
  unfold checkSessionComplete
  split
  · intro p hp
    exact h p hp
  · exact h

theorem handleComplete_inv {s : OtaSession} {uuid : String} {c : OtaComplete}
    {now : Nat} (h : SessionInv s) : SessionInv (handleComplete s uuid c now).1 := by
  unfold handleComplete
  split
  · split
    · split
      · exact h
      · apply checkSessionComplete_inv
        simp only [SessionInv]
        refine updateDev_inv h (fun d hd => ?_)
        split <;> (simp only [DevInv] at hd ⊢; omega)
    · exact h
  · exact h

theorem timeoutDevice_inv {total now : Nat} {d : DeviceOtaInfo}
    (hd : DevInv total d) : DevInv total (timeoutDevice total now d).1 := by
  simp only [timeoutDevice]
  split
  · split
    · simp only [DevInv] at hd ⊢
      omega
    · split <;> (simp only [DevInv] at hd ⊢; omega)
  · exact hd

theorem checkTimeouts_inv {s : OtaSession} {now : Nat} (h : SessionInv s) :
    SessionInv (checkTimeouts s now).1 := by
  unfold checkTimeouts
  split
  · simp only [SessionInv]
    intro p hp
    simp only [List.mem_map] at hp
    obtain ⟨q, hq, rfl⟩ := hp
    exact timeoutDevice_inv (h q hq)
  · exact h

theorem pendingDevice_inv {total : Nat} {d : DeviceOtaInfo}
    (hd : DevInv total d) : DevInv total (pendingDevice total d).1 := by
  simp only [pendingDevice]
  split
  · split
    · split <;> (simp only [DevInv] at hd ⊢; omega)
    · exact hd
  · exact hd

theorem processPendingChunks_inv {s : OtaSession} (h : SessionInv s) :
    SessionInv (processPendingChunks s).1 := by
  unfold processPendingChunks
  split
  · simp only [SessionInv]
    intro p hp
    simp only [List.mem_map] at hp
    obtain ⟨q, hq, rfl⟩ := hp
    exact pendingDevice_inv (h q hq)
  · exact h

theorem step_inv (e : Event) (s : OtaSession) (h : SessionInv s) :
    SessionInv (stepS e s) := by
  cases e with
  | request uuid ub req now => exact handleRequest_inv h
  | chunkAck uuid ack now => exact handleChunkAck_inv h
  | chunkNack uuid ack now => exact handleChunkNack_inv h
  | complete uuid c now => exact handleComplete_inv h
  | timeoutSweep now => exact checkTimeouts_inv h
  | pendingSweep => exact processPendingChunks_inv h
  | stop => exact h

/-- C2 (amended): after every session operation and for every sequence of
    incoming messages, every tracked device satisfies
    `-1 ≤ last_chunk_acked` and `-1 ≤ last_chunk_sent < total_chunks`.
    (The claimed chain `last_chunk_acked ≤ last_chunk_sent` does not hold and
    neither does `last_chunk_acked < total_chunks`, see the counterexample.) -/
theorem c2_invariant_amended (es : List Event) (s : OtaSession) (h : SessionInv s) :
    SessionInv (runEvents es s) := by
  induction es generalizing s with
  | nil => exact h
  | cons e rest ih =>
    rw [runEvents, List.foldl_cons]
    exact ih (stepS e s) (step_inv e s h)

/-- C2 counterexample: on a one-chunk active session, an `OTA_REQUEST`
    followed by a status-0 `OTA_CHUNK_ACK` carrying the u16-encodable index 5
    leaves the device with `last_chunk_acked = 5`, `last_chunk_sent = 0`,
    violating `-1 ≤ last_chunk_acked ≤ last_chunk_sent < total_chunks`. -/
theorem c2_counterexample :
    ¬ (∀ p ∈ (runEvents
        [ .request "d1" [1]
            { announceId := 1, currentVersionMajor := 1, currentVersionMinor := 0,
              currentVersionPatch := 0, lastChunkReceived := 0xFFFF } 0,
          .chunkAck "d1" { announceId := 1, chunkIndex := 5, status := 0 } 1 ]
        { announceId := 1, firmwareData := List.replicate 100 0,
          firmwareSize := 100, totalChunks := 1, isActive := true }).devices,
        ClaimedDevInv 1 p.2) := by
  decide

/-- Witness for the amended C2: the invariant holds after the same trace,
    starting from the fresh (device-free) session. -/
theorem c2_invariant_amended_witness :
    SessionInv (runEvents
        [ .request "d1" [1]
            { announceId := 1, currentVersionMajor := 1, currentVersionMinor := 0,
              currentVersionPatch := 0, lastChunkReceived := 0xFFFF } 0,
          .chunkAck "d1" { announceId := 1, chunkIndex := 5, status := 0 } 1 ]
        { announceId := 1, firmwareData := List.replicate 100 0,
          firmwareSize := 100, totalChunks := 1, isActive := true }) :=
  c2_invariant_amended _ _ (by decide)

/-! ## C3: ACK handling -/

/-- C3 counterexample: with a device whose `last_chunk_acked = 1` (it resumed
    at chunk 2 via `OTA_REQUEST(last_chunk_received = 1)` on a 3-chunk
    session), a stale status-0 ACK for chunk 0 is *not* ignored: the handler
    rewinds `last_chunk_acked` from 1 to 0. -/
theorem c3_counterexample :
    ((lookupDev (runEvents
        [ .request "d1" [1]
            { announceId := 1, currentVersionMajor := 1, currentVersionMinor := 0,
              currentVersionPatch := 0, lastChunkReceived := 1 } 0 ]
        { announceId := 1, firmwareData := List.replicate 450 0,
          firmwareSize := 450, totalChunks := 3, isActive := true }).devices "d1").map
        (fun d => d.lastChunkAcked) = some 1)
    ∧ ((lookupDev (runEvents
        [ .request "d1" [1]
            { announceId := 1, currentVersionMajor := 1, currentVersionMinor := 0,
              currentVersionPatch := 0, lastChunkReceived := 1 } 0,
          .chunkAck "d1" { announceId := 1, chunkIndex := 0, status := 0 } 1 ]
        { announceId := 1, firmwareData := List.replicate 450 0,
          firmwareSize := 450, totalChunks := 3, isActive := true }).devices "d1").map
        (fun d => d.lastChunkAcked) = some 0) := by
  decide

/-- C3 (amended): a status-0 ACK with matching announce id from a tracked
    device unconditionally overwrites the record — `last_chunk_acked` becomes
    the ACK's `chunk_index` (there is no staleness check, so a stale ACK
    rewinds it), the state becomes RECEIVING, the retry count resets, and
    chunk `chunk_index + 1` is transmitted iff `chunk_index + 1 < total_chunks`.
    Because the overwrite is by constants, handling the same ACK twice leaves
    the same state (and re-sends the same chunk) as handling it once. -/
theorem c3_ack_overwrites (s : OtaSession) (uuid : String) (ack : OtaChunkAck)
    (now : Nat) (d : DeviceOtaInfo)
    (hact : s.isActive = true) (hid : ack.announceId = s.announceId)
    (hdev : lookupDev s.devices uuid = some d) (hst : ack.status = 0) :
    lookupDev (handleChunkAck s uuid ack now).1.devices uuid
      = some { d with lastChunkAcked := (ack.chunkIndex : Int), state := .receiving,
                      lastActivity := now, retryCount := 0,
                      lastChunkSent := if ack.chunkIndex + 1 < s.totalChunks
                        then ((ack.chunkIndex : Int) + 1) else d.lastChunkSent }
    ∧ (handleChunkAck s uuid ack now).2
        = (if ack.chunkIndex + 1 < s.totalChunks then [((ack.chunkIndex : Int) + 1)] else [])
    ∧ handleChunkAck (handleChunkAck s uuid ack now).1 uuid ack now
        = handleChunkAck s uuid ack now := by
  by_cases hlt : ack.chunkIndex + 1 < s.totalChunks
  · have hlt' : ¬ ((s.totalChunks : Int) ≤ (ack.chunkIndex : Int) + 1) := by
      omega
    refine ⟨?_, ?_, ?_⟩ <;>
      simp [handleChunkAck, sendChunk, hact, hid, hst, hdev, hlt, hlt',
        lookupDev_updateDev_self, updateDev_updateDev]
  · have hlt' : (s.totalChunks : Int) ≤ (ack.chunkIndex : Int) + 1 := by
      omega
    refine ⟨?_, ?_, ?_⟩ <;>
      simp [handleChunkAck, sendChunk, hact, hid, hst, hdev, hlt, hlt',
        lookupDev_updateDev_self, updateDev_updateDev]

/-- Concrete fixture: a 3-chunk active session tracking one device that has
    ACKed chunk 1 and been sent chunk 2. -/
def c3Dev : DeviceOtaInfo :=
  { state := .receiving, lastChunkAcked := 1, lastChunkSent := 2 }

def c3Session : OtaSession :=
  { announceId := 7, totalChunks := 3, isActive := true, devices := [("d1", c3Dev)] }

def c3Ack : OtaChunkAck := { announceId := 7, chunkIndex := 0, status := 0 }

/-- Witness for the amended C3 at the concrete fixture. -/
theorem c3_ack_overwrites_witness :
    lookupDev (handleChunkAck c3Session "d1" c3Ack 9).1.devices "d1"
      = some { c3Dev with lastChunkAcked := (c3Ack.chunkIndex : Int), state := .receiving,
                          lastActivity := 9, retryCount := 0,
                          lastChunkSent := if c3Ack.chunkIndex + 1 < c3Session.totalChunks
                            then ((c3Ack.chunkIndex : Int) + 1) else c3Dev.lastChunkSent }
    ∧ (handleChunkAck c3Session "d1" c3Ack 9).2
        = (if c3Ack.chunkIndex + 1 < c3Session.totalChunks
            then [((c3Ack.chunkIndex : Int) + 1)] else [])
    ∧ handleChunkAck (handleChunkAck c3Session "d1" c3Ack 9).1 "d1" c3Ack 9
        = handleChunkAck c3Session "d1" c3Ack 9 :=
  c3_ack_overwrites c3Session "d1" c3Ack 9 c3Dev (by decide) (by decide) (by decide) (by decide)

/-! ## C4: NACK handling -/

/-- Characterization of one `_handle_chunk_nack` call on a tracked device. -/
theorem nack_step (s : OtaSession) (uuid : String) (ack : OtaChunkAck) (now : Nat)
    (d : DeviceOtaInfo) (hact : s.isActive = true) (hid : ack.announceId = s.announceId)
    (hdev : lookupDev s.devices uuid = some d) :
    (handleChunkNack s uuid ack now).1.isActive = true
    ∧ (handleChunkNack s uuid ack now).1.announceId = s.announceId
    ∧ (handleChunkNack s uuid ack now).1.totalChunks = s.totalChunks
    ∧ lookupDev (handleChunkNack s uuid ack now).1.devices uuid
        = some (if OTA_MAX_RETRIES < d.retryCount + 1
            then { d with lastActivity := now, retryCount := d.retryCount + 1,
                          state := .error, errorMessage := "Max retries exceeded" }
            else if (ack.chunkIndex : Int) < (s.totalChunks : Int)
              then { d with lastActivity := now, retryCount := d.retryCount + 1,
                            lastChunkSent := (ack.chunkIndex : Int) }
              else { d with lastActivity := now, retryCount := d.retryCount + 1 })
    ∧ (handleChunkNack s uuid ack now).2
        = (if OTA_MAX_RETRIES < d.retryCount + 1 then []
           else if (ack.chunkIndex : Int) < (s.totalChunks : Int)
             then [(ack.chunkIndex : Int)] else []) := by
  by_cases hr : OTA_MAX_RETRIES < d.retryCount + 1
  · refine ⟨?_, ?_, ?_, ?_, ?_⟩ <;>
      simp [handleChunkNack, sendChunk, hact, hid, hdev, hr, lookupDev_updateDev_self]
  · by_cases hc : (ack.chunkIndex : Int) < (s.totalChunks : Int)
    · have hc' : ¬ ((s.totalChunks : Int) ≤ (ack.chunkIndex : Int)) := by omega
      refine ⟨?_, ?_, ?_, ?_, ?_⟩ <;>
        simp [handleChunkNack, sendChunk, hact, hid, hdev, hr, hc, hc',
          lookupDev_updateDev_self]
    · have hc' : (s.totalChunks : Int) ≤ (ack.chunkIndex : Int) := by omega
      refine ⟨?_, ?_, ?_, ?_, ?_⟩ <;>
        simp [handleChunkNack, sendChunk, hact, hid, hdev, hr, hc, hc',
          lookupDev_updateDev_self]

/-- The net effect of one below-limit NACK on the device record. -/
def nackApply (idx : Int) (total : Nat) (now : Nat) (d : DeviceOtaInfo) : DeviceOtaInfo :=
  if idx < (total : Int)
  then { d with lastActivity := now, retryCount := d.retryCount + 1, lastChunkSent := idx }
  else { d with lastActivity := now, retryCount := d.retryCount + 1 }

theorem nackApply_retry (idx : Int) (total now : Nat) (d : DeviceOtaInfo) :
    (nackApply idx total now d).retryCount = d.retryCount + 1 := by
  unfold nackApply
  split <;> rfl

theorem nackApply_iterate_retry (idx : Int) (total now : Nat) (k : Nat) (d : DeviceOtaInfo) :
    ((nackApply idx total now)^[k] d).retryCount = d.retryCount + k := by
  induction k generalizing d with
  | zero => rfl
  | succ k ih =>
    rw [Function.iterate_succ_apply, ih, nackApply_retry]
    omega

theorem runEvents_cons (e : Event) (es : List Event) (s : OtaSession) :
    runEvents (e :: es) s = runEvents es (stepS e s) := rfl

theorem runEvents_append (es es' : List Event) (s : OtaSession) :
    runEvents (es ++ es') s = runEvents es' (runEvents es s) := by
  simp [runEvents, List.foldl_append]

/-- Effect of `k` consecutive below-limit NACKs for the same chunk. -/
theorem nack_run (k : Nat) (s : OtaSession) (uuid : String) (ack : OtaChunkAck)
    (now : Nat) (d : DeviceOtaInfo) (hact : s.isActive = true)
    (hid : ack.announceId = s.announceId) (hdev : lookupDev s.devices uuid = some d)
    (hk : d.retryCount + k ≤ OTA_MAX_RETRIES) :
    (runEvents (List.replicate k (.chunkNack uuid ack now)) s).isActive = true
    ∧ (runEvents (List.replicate k (.chunkNack uuid ack now)) s).announceId = s.announceId
    ∧ (runEvents (List.replicate k (.chunkNack uuid ack now)) s).totalChunks = s.totalChunks
    ∧ lookupDev (runEvents (List.replicate k (.chunkNack uuid ack now)) s).devices uuid
        = some ((nackApply (ack.chunkIndex : Int) s.totalChunks now)^[k] d) := by
  induction k generalizing s d with
  | zero => exact ⟨hact, rfl, rfl, hdev⟩
  | succ k ih =>
    rw [List.replicate_succ, runEvents_cons]
    have hs := nack_step s uuid ack now d hact hid hdev
    have hbr : ¬ OTA_MAX_RETRIES < d.retryCount + 1 := by
      simp only [OTA_MAX_RETRIES] at hk ⊢
      omega
    rw [if_neg hbr] at hs
    have hdev1 : lookupDev (stepS (.chunkNack uuid ack now) s).devices uuid
        = some (nackApply (ack.chunkIndex : Int) s.totalChunks now d) := by
      rw [stepS, step]
      rw [hs.2.2.2.1]
      unfold nackApply
      split <;> rfl
    have hid1 : ack.announceId = (stepS (.chunkNack uuid ack now) s).announceId := by
      rw [stepS, step, hs.2.1]
      exact hid
    have hact1 : (stepS (.chunkNack uuid ack now) s).isActive = true := hs.1
    have hk1 : (nackApply (ack.chunkIndex : Int) s.totalChunks now d).retryCount + k
        ≤ OTA_MAX_RETRIES := by
      rw [nackApply_retry]
      omega
    have ihx := ih (stepS (.chunkNack uuid ack now) s)
      (nackApply (ack.chunkIndex : Int) s.totalChunks now d) hact1 hid1 hdev1 hk1
    have htc : (stepS (.chunkNack uuid ack now) s).totalChunks = s.totalChunks := by
      rw [stepS, step]
      exact hs.2.2.1
    refine ⟨ihx.1, ?_, ?_, ?_⟩
    · rw [ihx.2.1, stepS, step, hs.2.1]
    · rw [ihx.2.2.1, htc]
    · rw [ihx.2.2.2, htc, Function.iterate_succ_apply]

/-- Concrete fixture for C4: a one-chunk active session with a tracked device
    that has received chunk 0 and not yet exhausted its retries. -/
def c4Dev : DeviceOtaInfo := { state := .requested, lastChunkAcked := -1, lastChunkSent := 0 }

def c4Session : OtaSession :=
  { announceId := 1, totalChunks := 1, isActive := true, devices := [("d1", c4Dev)] }

/-- C4 counterexample: a NACK carrying the out-of-range chunk index 1 on a
    one-chunk session takes the below-limit branch (retry count becomes 1 ≤ 5),
    yet *no* chunk is transmitted, because `_send_chunk` silently drops
    out-of-range indices — contradicting "otherwise chunk chunk_index is
    retransmitted". -/
theorem c4_counterexample :
    (step (.chunkNack "d1" { announceId := 1, chunkIndex := 1, status := 1 } 0)
        c4Session).2 = []
    ∧ ((lookupDev (step (.chunkNack "d1" { announceId := 1, chunkIndex := 1, status := 1 } 0)
        c4Session).1.devices "d1").map (fun d => d.retryCount) = some 1)
    ∧ 1 ≤ OTA_MAX_RETRIES := by
  decide

/-- C4 (amended): a NACK with matching announce id from a tracked device
    increments the retry count; if the incremented count exceeds
    `OTA_MAX_RETRIES = 5` the device transitions to ERROR("Max retries
    exceeded") and nothing is sent; otherwise chunk `chunk_index` is
    retransmitted *provided it is in range* (`chunk_index < total_chunks`;
    an out-of-range index sends nothing), and `last_chunk_acked` is unchanged
    in every case.  In particular six consecutive NACKs starting from
    retry count 0 leave the device in ERROR("Max retries exceeded") and the
    sixth NACK sends nothing. -/
theorem c4_nack_amended (s : OtaSession) (uuid : String) (ack : OtaChunkAck)
    (now : Nat) (d : DeviceOtaInfo) (hact : s.isActive = true)
    (hid : ack.announceId = s.announceId) (hdev : lookupDev s.devices uuid = some d) :
    (OTA_MAX_RETRIES < d.retryCount + 1 →
      lookupDev (handleChunkNack s uuid ack now).1.devices uuid
        = some { d with lastActivity := now, retryCount := d.retryCount + 1,
                        state := .error, errorMessage := "Max retries exceeded" }
      ∧ (handleChunkNack s uuid ack now).2 = [])
    ∧ (¬ OTA_MAX_RETRIES < d.retryCount + 1 →
      lookupDev (handleChunkNack s uuid ack now).1.devices uuid
        = some (if (ack.chunkIndex : Int) < (s.totalChunks : Int)
            then { d with lastActivity := now, retryCount := d.retryCount + 1,
                          lastChunkSent := (ack.chunkIndex : Int) }
            else { d with lastActivity := now, retryCount := d.retryCount + 1 })
      ∧ (handleChunkNack s uuid ack now).2
          = (if (ack.chunkIndex : Int) < (s.totalChunks : Int)
              then [(ack.chunkIndex : Int)] else []))
    ∧ ((lookupDev (handleChunkNack s uuid ack now).1.devices uuid).map
        (fun d2 => d2.lastChunkAcked) = some d.lastChunkAcked)
    ∧ (d.retryCount = 0 →
      ((lookupDev (runEvents (List.replicate 6 (Event.chunkNack uuid ack now)) s).devices
          uuid).map (fun d2 => (d2.state, d2.errorMessage))
        = some (DeviceOtaState.error, "Max retries exceeded"))
      ∧ (step (Event.chunkNack uuid ack now)
          (runEvents (List.replicate 5 (Event.chunkNack uuid ack now)) s)).2 = []) := by
  have hs := nack_step s uuid ack now d hact hid hdev
  refine ⟨?_, ?_, ?_, ?_⟩
  · intro hr
    exact ⟨by rw [hs.2.2.2.1, if_pos hr], by rw [hs.2.2.2.2, if_pos hr]⟩
  · intro hr
    exact ⟨by rw [hs.2.2.2.1, if_neg hr], by rw [hs.2.2.2.2, if_neg hr]⟩
  · rw [hs.2.2.2.1]
    split
    · rfl
    · split <;> rfl
  · intro hr0
    have h5 := nack_run 5 s uuid ack now d hact hid hdev
      (by rw [hr0]; simp [OTA_MAX_RETRIES])
    have hrep : List.replicate 6 (Event.chunkNack uuid ack now)
        = List.replicate 5 (Event.chunkNack uuid ack now)
            ++ [Event.chunkNack uuid ack now] := List.replicate_succ' 5 _
    have hretry5 : ((nackApply (ack.chunkIndex : Int) s.totalChunks now)^[5] d).retryCount
        = 5 := by
      rw [nackApply_iterate_retry, hr0]
    have h6 := nack_step (runEvents (List.replicate 5 (Event.chunkNack uuid ack now)) s)
      uuid ack now _ h5.1 (by rw [h5.2.1]; exact hid) h5.2.2.2
    have hbr6 : OTA_MAX_RETRIES
        < ((nackApply (ack.chunkIndex : Int) s.totalChunks now)^[5] d).retryCount + 1 := by
      rw [hretry5]
      simp [OTA_MAX_RETRIES]
    simp only [if_pos hbr6] at h6
    constructor
    · rw [hrep, runEvents_append]
      have hconv : runEvents [Event.chunkNack uuid ack now]
            (runEvents (List.replicate 5 (Event.chunkNack uuid ack now)) s)
          = (handleChunkNack (runEvents (List.replicate 5 (Event.chunkNack uuid ack now)) s)
              uuid ack now).1 := rfl
      rw [hconv, h6.2.2.2.1]
      rfl
    · have hconv2 : (step (Event.chunkNack uuid ack now)
            (runEvents (List.replicate 5 (Event.chunkNack uuid ack now)) s)).2
          = (handleChunkNack (runEvents (List.replicate 5 (Event.chunkNack uuid ack now)) s)
              uuid ack now).2 := rfl
      rw [hconv2]
      exact h6.2.2.2.2

/-- Witness for the amended C4 at the concrete fixture (projects the
    acked-unchanged and six-NACK conclusions). -/
theorem c4_nack_amended_witness :
    ((lookupDev (handleChunkNack c4Session "d1"
        { announceId := 1, chunkIndex := 0, status := 1 } 3).1.devices "d1").map
          (fun d2 => d2.lastChunkAcked) = some c4Dev.lastChunkAcked)
    ∧ (c4Dev.retryCount = 0 →
      ((lookupDev (runEvents (List.replicate 6
          (Event.chunkNack "d1" { announceId := 1, chunkIndex := 0, status := 1 } 3))
          c4Session).devices "d1").map (fun d2 => (d2.state, d2.errorMessage))
        = some (DeviceOtaState.error, "Max retries exceeded"))
      ∧ (step (Event.chunkNack "d1" { announceId := 1, chunkIndex := 0, status := 1 } 3)
          (runEvents (List.replicate 5
            (Event.chunkNack "d1" { announceId := 1, chunkIndex := 0, status := 1 } 3))
            c4Session)).2 = []) :=
  ⟨(c4_nack_amended c4Session "d1" _ 3 c4Dev rfl rfl (by decide)).2.2.1,
   (c4_nack_amended c4Session "d1" _ 3 c4Dev rfl rfl (by decide)).2.2.2⟩

/-! ## C5: `is_active` transitions -/

theorem sendChunk_isActive (s : OtaSession) (uuid : String) (i : Int) :
    (sendChunk s uuid i).1.isActive = s.isActive := by
  unfold sendChunk
  split <;> rfl

theorem handleRequest_isActive (s : OtaSession) (uuid : String) (ub : List Nat)
    (req : OtaRequest) (now : Nat) :
    (handleRequest s uuid ub req now).1.isActive = s.isActive := by
  unfold handleRequest
  (repeat' split) <;> simp [sendChunk_isActive]

theorem handleChunkAck_isActive (s : OtaSession) (uuid : String) (ack : OtaChunkAck)
    (now : Nat) : (handleChunkAck s uuid ack now).1.isActive = s.isActive := by
  unfold handleChunkAck
  (repeat' split) <;> simp [sendChunk_isActive]

theorem handleChunkNack_isActive (s : OtaSession) (uuid : String) (ack : OtaChunkAck)
    (now : Nat) : (handleChunkNack s uuid ack now).1.isActive = s.isActive := by
  unfold handleChunkNack
  (repeat' split) <;> simp [sendChunk_isActive]

theorem checkTimeouts_isActive (s : OtaSession) (now : Nat) :
    (checkTimeouts s now).1.isActive = s.isActive := by
  unfold checkTimeouts
  split <;> rfl

theorem processPendingChunks_isActive (s : OtaSession) :
    (processPendingChunks s).1.isActive = s.isActive := by
  unfold processPendingChunks
  split <;> rfl

theorem checkSessionComplete_isActive (s : OtaSession) :
    (checkSessionComplete s).isActive = if sessionDone s then false else s.isActive := by
  unfold checkSessionComplete
  split <;> simp [*]

theorem sessionDone_checkSessionComplete (s : OtaSession) :
    sessionDone (checkSessionComplete s) = sessionDone s := by
  unfold checkSessionComplete
  split <;> rfl

/-- C5 counterexample: one tracked device exhausts its retries via six NACKs;
    afterwards every tracked device is terminal and the devices map is
    non-empty, yet `is_active` is still `true` — the session-complete check
    only runs inside the `OTA_COMPLETE` handler. -/
theorem c5_counterexample :
    sessionDone (runEvents
        (Event.request "d1" [1]
            { announceId := 1, currentVersionMajor := 1, currentVersionMinor := 0,
              currentVersionPatch := 0, lastChunkReceived := 0xFFFF } 0
          :: List.replicate 6
              (Event.chunkNack "d1" { announceId := 1, chunkIndex := 0, status := 1 } 1))
        { announceId := 1, firmwareData := List.replicate 100 0,
          firmwareSize := 100, totalChunks := 1, isActive := true }) = true
    ∧ (runEvents
        (Event.request "d1" [1]
            { announceId := 1, currentVersionMajor := 1, currentVersionMinor := 0,
              currentVersionPatch := 0, lastChunkReceived := 0xFFFF } 0
          :: List.replicate 6
              (Event.chunkNack "d1" { announceId := 1, chunkIndex := 0, status := 1 } 1))
        { announceId := 1, firmwareData := List.replicate 100 0,
          firmwareSize := 100, totalChunks := 1, isActive := true }).isActive = true := by
  decide

/-- C5 (amended): once `is_active` is false it stays false, and while the
    session is active a step turns it false exactly when the step is `stop()`
    or an `OTA_COMPLETE` handled for a tracked device with the session's
    announce id after which every tracked device is terminal and the map is
    non-empty.  A device reaching ERROR through NACK exhaustion or the
    timeout sweep does *not* end the session. -/
theorem c5_active_transition (e : Event) (s : OtaSession) :
    (s.isActive = false → (stepS e s).isActive = false)
    ∧ (s.isActive = true →
        ((stepS e s).isActive = false ↔
          (e = Event.stop ∨ ∃ uuid c now, e = Event.complete uuid c now
            ∧ c.announceId = s.announceId
            ∧ (lookupDev s.devices uuid).isSome = true
            ∧ sessionDone (stepS e s) = true))) := by
  constructor
  · intro hf
    cases e <;>
      simp [stepS, step, handleRequest, handleChunkAck, handleChunkNack, handleComplete,
        checkTimeouts, processPendingChunks, stopUpdate, hf]
  · intro ht
    cases e with
    | request uuid ub req now =>
      rw [show stepS (Event.request uuid ub req now) s
        = (handleRequest s uuid ub req now).1 from rfl, handleRequest_isActive, ht]
      simp
    | chunkAck uuid ack now =>
      rw [show stepS (Event.chunkAck uuid ack now) s
        = (handleChunkAck s uuid ack now).1 from rfl, handleChunkAck_isActive, ht]
      simp
    | chunkNack uuid ack now =>
      rw [show stepS (Event.chunkNack uuid ack now) s
        = (handleChunkNack s uuid ack now).1 from rfl, handleChunkNack_isActive, ht]
      simp
    | timeoutSweep now =>
      rw [show stepS (Event.timeoutSweep now) s
        = (checkTimeouts s now).1 from rfl, checkTimeouts_isActive, ht]
      simp
    | pendingSweep =>
      rw [show stepS Event.pendingSweep s
        = (processPendingChunks s).1 from rfl, processPendingChunks_isActive, ht]
      simp
    | stop => simp [stepS, step, stopUpdate]
    | complete uuid c now =>
      have hconv : stepS (Event.complete uuid c now) s
          = (handleComplete s uuid c now).1 := rfl
      by_cases hid : c.announceId = s.announceId
      · cases hdev : lookupDev s.devices uuid with
        | none =>
          have hres : (handleComplete s uuid c now).1 = s := by
            unfold handleComplete
            rw [if_pos ht, if_pos hid, hdev]
          rw [hconv, hres, ht]
          simp [hdev]
        | some d =>
          set ds2 := updateDev s.devices uuid (fun d0 =>
            if c.status = 0
            then { d0 with lastActivity := now, state := DeviceOtaState.complete }
            else { d0 with lastActivity := now, state := DeviceOtaState.error,
                           errorMessage := "CRC mismatch" }) with hds2
          have hres : (handleComplete s uuid c now).1
              = checkSessionComplete { s with devices := ds2 } := by
            unfold handleComplete
            rw [if_pos ht, if_pos hid, hdev, hds2]
          rw [hconv, hres, checkSessionComplete_isActive, sessionDone_checkSessionComplete]
          constructor
          · intro hl
            right
            refine ⟨uuid, c, now, rfl, hid, by rw [hdev]; rfl, ?_⟩
            by_cases hdone : sessionDone { s with devices := ds2 } = true
            · exact hdone
            · rw [if_neg hdone] at hl
              rw [show ({ s with devices := ds2 } : OtaSession).isActive
                = s.isActive from rfl, ht] at hl
              exact absurd hl (by simp)
          · intro hr
            rcases hr with hr | ⟨uuid2, c2, now2, he, hid2, hsome2, hdone2⟩
            · exact absurd hr (by simp)
            · injection he with h1 h2 h3
              subst h1
              subst h2
              subst h3
              rw [if_pos hdone2]
      · have hres : (handleComplete s uuid c now).1 = s := by
          unfold handleComplete
          rw [if_pos ht, if_neg hid]
        rw [hconv, hres, ht]
        simp [hid]
/-- Concrete fixture for C5: an active session with no tracked devices. -/
def c5Session : OtaSession := { announceId := 2, totalChunks := 1, isActive := true }

/-- Witness for the amended C5: on an active session, `stop()` flips
    `is_active` to false (via the transition characterization). -/
theorem c5_active_transition_witness : (stepS Event.stop c5Session).isActive = false :=
  ((c5_active_transition Event.stop c5Session).2 rfl).mpr (Or.inl rfl)

/-! ## Packet codec (protocol.py): header pack / parse -/

/-- `PacketHeader` (protocol.py lines 64-93): format `'<2sBBB16sHB'`. -/
structure PacketHeader where
  magic : List Nat
  version : Nat
  msgType : Nat
  deviceType : Nat
  uuid : List Nat
  sequence : Nat
  payloadLen : Nat
deriving DecidableEq, Repr

/-- struct `'ns'`: pad with NULs or truncate to exactly `n` bytes. -/
def packBytes (n : Nat) (b : List Nat) : List Nat :=
  b.take n ++ List.replicate (n - b.length) 0

/-- `PacketHeader.pack`: little-endian `'<2sBBB16sHB'`.  `struct.pack` raises
    for out-of-range integer fields, so the bytes below are the packed output
    exactly for well-formed headers (the theorem's hypothesis). -/
def packHeader (h : PacketHeader) : List Nat :=
  packBytes 2 h.magic ++ [h.version, h.msgType, h.deviceType] ++ packBytes 16 h.uuid
    ++ [h.sequence % 256, h.sequence / 256 % 256] ++ [h.payloadLen]

def HEADER_SIZE : Nat := 24

/-- Field ranges under which `PacketHeader.pack` does not raise. -/
def headerWF (h : PacketHeader) : Prop :=
  h.magic.length = 2 ∧ h.version < 256 ∧ h.msgType < 256 ∧ h.deviceType < 256
    ∧ h.uuid.length = 16 ∧ h.sequence < 65536 ∧ h.payloadLen < 256

instance (h : PacketHeader) : Decidable (headerWF h) := by
  unfold headerWF; infer_instance

/-- `Protocol.parse_packet` (protocol.py lines 324-332): a length check only,
    then `struct.unpack` of the first 24 bytes and the payload slice
    `data[24 : 24 + payload_len]`.  No magic or version check is performed. -/
def parsePacket (data : List Nat) : Option (PacketHeader × List Nat) :=
  if data.length < HEADER_SIZE then none
  else
    let h : PacketHeader := {
      magic := data.take 2,
      version := data.getD 2 0,
      msgType := data.getD 3 0,
      deviceType := data.getD 4 0,
      uuid := (data.drop 5).take 16,
      sequence := data.getD 21 0 + 256 * data.getD 22 0,
      payloadLen := data.getD 23 0 }
    some (h, (data.drop HEADER_SIZE).take h.payloadLen)

theorem packBytes_of_length {n : Nat} {b : List Nat} (h : b.length = n) :
    packBytes n b = b := by
  rw [packBytes, ← h, List.take_length, Nat.sub_self, List.replicate_zero, List.append_nil]

/-- C6: for a header with in-range fields, `pack` yields exactly 24 bytes,
    and parsing `pack(h) ++ payload` returns `h` and the payload whenever
    `payload_len = len(payload)`: encode and decode are inverses. -/
theorem c6_header_roundtrip (h : PacketHeader) (payload : List Nat)
    (hwf : headerWF h) (hlen : payload.length = h.payloadLen) :
    (packHeader h).length = HEADER_SIZE
    ∧ parsePacket (packHeader h ++ payload) = some (h, payload) := by
  obtain ⟨magic, version, msgType, deviceType, uuid, sequence, payloadLen⟩ := h
  obtain ⟨hm, hv, hmt, hdt, hu, hs, hpl⟩ := hwf
  simp only [] at hm hv hmt hdt hu hs hpl hlen
  obtain ⟨m0, m1, rfl⟩ := List.length_eq_two.mp hm
  have hdata : packHeader ⟨[m0, m1], version, msgType, deviceType, uuid, sequence, payloadLen⟩
        ++ payload
      = m0 :: m1 :: version :: msgType :: deviceType ::
          (uuid ++ (sequence % 256 :: sequence / 256 % 256 :: payloadLen :: payload)) := by
    rw [packHeader, packBytes_of_length hu]
    simp [packBytes, List.append_assoc]
  constructor
  · rw [packHeader, packBytes_of_length hu]
    simp [packBytes, hu, HEADER_SIZE]
  · rw [hdata]
    unfold parsePacket
    have hlen24 : ¬ (m0 :: m1 :: version :: msgType :: deviceType ::
        (uuid ++ (sequence % 256 :: sequence / 256 % 256 :: payloadLen :: payload))).length
          < HEADER_SIZE := by
      simp only [List.length_cons, List.length_append, hu, HEADER_SIZE]
      omega
    rw [if_neg hlen24]
    have hgd21 : (m0 :: m1 :: version :: msgType :: deviceType ::
        (uuid ++ (sequence % 256 :: sequence / 256 % 256 :: payloadLen :: payload))).getD 21 0
          = sequence % 256 := by
      simp only [List.getD_cons_succ]
      rw [List.getD_append_right _ _ _ _ (by omega), hu]
      simp
    have hgd22 : (m0 :: m1 :: version :: msgType :: deviceType ::
        (uuid ++ (sequence % 256 :: sequence / 256 % 256 :: payloadLen :: payload))).getD 22 0
          = sequence / 256 % 256 := by
      simp only [List.getD_cons_succ]
      rw [List.getD_append_right _ _ _ _ (by omega), hu]
      simp
    have hgd23 : (m0 :: m1 :: version :: msgType :: deviceType ::
        (uuid ++ (sequence % 256 :: sequence / 256 % 256 :: payloadLen :: payload))).getD 23 0
          = payloadLen := by
      simp only [List.getD_cons_succ]
      rw [List.getD_append_right _ _ _ _ (by omega), hu]
      simp
    have hdrop24 : (m0 :: m1 :: version :: msgType :: deviceType ::
        (uuid ++ (sequence % 256 :: sequence / 256 % 256 :: payloadLen :: payload))).drop
          HEADER_SIZE = payload := by
      show (uuid ++ (sequence % 256 :: sequence / 256 % 256 :: payloadLen :: payload)).drop
        19 = payload
      rw [show (19 : Nat) = 16 + 3 from rfl, ← List.drop_drop, List.drop_left' hu]
      rfl
    simp only [List.getD_cons_succ, List.getD_cons_zero, List.take_cons, List.drop_succ_cons,
      List.drop_zero, hgd21, hgd22, hgd23, hdrop24]
    rw [List.take_left' hu]
    have hseq : sequence % 256 + 256 * (sequence / 256 % 256) = sequence := by omega
    simp only [List.take, hseq]
    rw [← hlen, List.take_length]

/-- Concrete fixture for the C6 witness. -/
def c6Header : PacketHeader :=
  { magic := [65, 71], version := 1, msgType := 0x12, deviceType := 0,
    uuid := List.replicate 16 9, sequence := 770, payloadLen := 2 }

/-- Witness for C6 at a concrete header and payload. -/
theorem c6_header_roundtrip_witness :
    headerWF c6Header
    ∧ ([10, 20] : List Nat).length = c6Header.payloadLen
    ∧ (packHeader c6Header).length = HEADER_SIZE
    ∧ parsePacket (packHeader c6Header ++ [10, 20]) = some (c6Header, [10, 20]) :=
  ⟨by decide, by decide, c6_header_roundtrip c6Header [10, 20] (by decide) (by decide)⟩
/-! ## C7: parse failures -/

/-- C7 counterexample: a 24-byte all-zero buffer has neither the `"AG"` magic
    (bytes `[65, 71]`) nor version 1, yet `parse_packet` still returns a
    header — it checks only the length. -/
theorem c7_counterexample :
    (parsePacket (List.replicate 24 0)).isSome = true
    ∧ (List.replicate 24 0 : List Nat).take 2 ≠ [65, 71]
    ∧ (List.replicate 24 0 : List Nat).getD 2 0 ≠ 1 := by
  decide

/-- C7 (amended): header decoding fails exactly on buffers shorter than
    24 bytes; no magic and no version check is performed, so every buffer of
    at least 24 bytes decodes to a header. -/
theorem c7_parse_none_iff_short (data : List Nat) :
    parsePacket data = none ↔ data.length < HEADER_SIZE := by
  unfold parsePacket
  split <;> simp [*]

/-! ## Reference CRC-32

The reference definition named by the spec: reflected polynomial
`0xEDB88320`, init `0xFFFFFFFF`, final xor `0xFFFFFFFF`, one bit at a time.
`crcmod.predefined.mkCrcFun('crc-32')` (protocol.py line 18) computes this
function; the patch script's nibble-table implementation is proved equal to
it below (C9).
-/

def crcBitStep (c : Nat) : Nat :=
  (c >>> 1) ^^^ (if c % 2 = 1 then 0xEDB88320 else 0)

def crc32RefUpdate (crc byte : Nat) : Nat := crcBitStep^[8] (crc ^^^ byte)

def crc32Ref (data : List Nat) : Nat :=
  (data.foldl crc32RefUpdate 0xFFFFFFFF) ^^^ 0xFFFFFFFF

/-! ## C8: `start_update` (ota_manager.py lines 95-150) -/

inductive StartError where
  | alreadyActive
  | fileNotFound
deriving DecidableEq, Repr

/-- `self.session and self.session.is_active` (ota_manager.py line 112). -/
def sessionActive : Option OtaSession → Bool
  | some s => s.isActive
  | none => false

/-- `start_update`: refuse a second active session, then load the firmware
    file (absent file raises `FileNotFoundError`), compute size, CRC32 and
    `total_chunks`, pick the `random.randint(1, 0xFFFFFFFF)` announce id
    (passed in as `rand`), and build the active session.  The filesystem is
    passed as a map from paths to contents. -/
def startUpdate (session : Option OtaSession) (fs : String → Option (List Nat))
    (firmwarePath : String) (version : Nat × Nat × Nat) (targetDeviceType : Nat)
    (rand : Nat) (now : Nat) : Except StartError (OtaSession × Nat) :=
  if sessionActive session then .error .alreadyActive
  else match fs firmwarePath with
    | none => .error .fileNotFound
    | some fw =>
      .ok ({ announceId := rand,
             targetDeviceType := targetDeviceType,
             firmwarePath := firmwarePath,
             firmwareData := fw,
             firmwareSize := fw.length,
             firmwareCrc := crc32Ref fw,
             version := version,
             totalChunks := totalChunksOf fw.length,
             devices := [],
             startTime := now,
             isActive := true }, rand)

/-- The manager's `self.session` after `start_update`: assigned only on
    success, left unchanged when an exception propagates. -/
def startUpdateSession (session : Option OtaSession) (fs : String → Option (List Nat))
    (firmwarePath : String) (version : Nat × Nat × Nat) (targetDeviceType : Nat)
    (rand : Nat) (now : Nat) : Option OtaSession :=
  match startUpdate session fs firmwarePath version targetDeviceType rand now with
  | .ok (s2, _) => some s2
  | .error _ => session

/-- C8: `start_update` fails with AlreadyActive whenever an active session
    exists, fails with FileNotFound when the firmware file is absent, and in
    both cases leaves the stored session unchanged; on success it returns a
    nonzero 32-bit announce id and stores an active session with
    `firmware_size` the file length and `total_chunks = ceil(size/200)`. -/
theorem c8_start_update (session : Option OtaSession) (fs : String → Option (List Nat))
    (path : String) (version : Nat × Nat × Nat) (tdt : Nat) (rand now : Nat)
    (hrand : 1 ≤ rand ∧ rand ≤ 0xFFFFFFFF) :
    ((∃ s0, session = some s0 ∧ s0.isActive = true) →
        startUpdate session fs path version tdt rand now = .error .alreadyActive
        ∧ startUpdateSession session fs path version tdt rand now = session)
    ∧ ((∀ s0, session = some s0 → s0.isActive = false) → fs path = none →
        startUpdate session fs path version tdt rand now = .error .fileNotFound
        ∧ startUpdateSession session fs path version tdt rand now = session)
    ∧ (∀ fw, (∀ s0, session = some s0 → s0.isActive = false) → fs path = some fw →
        ∃ s2, startUpdate session fs path version tdt rand now = .ok (s2, rand)
          ∧ startUpdateSession session fs path version tdt rand now = some s2
          ∧ rand ≠ 0 ∧ rand < 2 ^ 32
          ∧ s2.isActive = true ∧ s2.announceId = rand
          ∧ s2.firmwareSize = fw.length
          ∧ s2.totalChunks = totalChunksOf fw.length) := by
  refine ⟨?_, ?_, ?_⟩
  · rintro ⟨s0, rfl, hs0⟩
    have hact : sessionActive (some s0) = true := hs0
    constructor
    · unfold startUpdate
      rw [if_pos hact]
    · unfold startUpdateSession startUpdate
      rw [if_pos hact]
  · intro hinact hfs
    have hact : sessionActive session = false := by
      cases session with
      | none => rfl
      | some s0 => exact hinact s0 rfl
    constructor
    · unfold startUpdate
      rw [if_neg (by rw [hact]; simp), hfs]
    · unfold startUpdateSession startUpdate
      rw [if_neg (by rw [hact]; simp), hfs]
  · intro fw hinact hfs
    have hact : sessionActive session = false := by
      cases session with
      | none => rfl
      | some s0 => exact hinact s0 rfl
    refine ⟨{ announceId := rand, targetDeviceType := tdt, firmwarePath := path,
              firmwareData := fw, firmwareSize := fw.length, firmwareCrc := crc32Ref fw,
              version := version, totalChunks := totalChunksOf fw.length,
              devices := [], startTime := now, isActive := true },
            ?_, ?_, by omega, by omega, rfl, rfl, rfl, rfl⟩
    · unfold startUpdate
      rw [if_neg (by rw [hact]; simp), hfs]
    · unfold startUpdateSession startUpdate
      rw [if_neg (by rw [hact]; simp), hfs]

/-- Concrete filesystem fixture for the C8 witness: one 450-byte firmware. -/
def c8Fs : String → Option (List Nat) :=
  fun p => if p = "fw.bin" then some (List.replicate 450 7) else none

/-- Witness for C8: starting with no stored session and an existing 450-byte
    firmware file succeeds with the chosen announce id and a 3-chunk session. -/
theorem c8_start_update_witness :
    ∃ s2, startUpdate none c8Fs "fw.bin" (1, 2, 0) 0xFF 0xDEADBEEF 0 = .ok (s2, 0xDEADBEEF)
      ∧ startUpdateSession none c8Fs "fw.bin" (1, 2, 0) 0xFF 0xDEADBEEF 0 = some s2
      ∧ (0xDEADBEEF : Nat) ≠ 0 ∧ (0xDEADBEEF : Nat) < 2 ^ 32
      ∧ s2.isActive = true ∧ s2.announceId = 0xDEADBEEF
      ∧ s2.firmwareSize = (List.replicate 450 7 : List Nat).length
      ∧ s2.totalChunks = totalChunksOf (List.replicate 450 7 : List Nat).length :=
  (c8_start_update none c8Fs "fw.bin" (1, 2, 0) 0xFF 0xDEADBEEF 0 (by decide)).2.2
    (List.replicate 450 7) (fun s0 h => by cases h) (by decide)

/-! ## Image pipeline: patch_app_header.py -/

def APP_HEADER_MAGIC : Nat := 0x59534741
def APP_HEADER_SIZE : Nat := 48

/-- struct.pack('<I', n): four little-endian bytes. -/
def le32 (n : Nat) : List Nat :=
  [n % 256, n / 256 % 256, n / 65536 % 256, n / 16777216 % 256]

/-- `APP_HEADER_MAGIC_BYTES = struct.pack('<I', APP_HEADER_MAGIC)`. -/
def APP_HEADER_MAGIC_BYTES : List Nat := le32 APP_HEADER_MAGIC

/-- `CRC_TABLE` (patch_app_header.py lines 32-37). -/
def CRC_TABLE : List Nat :=
  [0x00000000, 0x1DB71064, 0x3B6E20C8, 0x26D930AC,
   0x76DC4190, 0x6B6B51F4, 0x4DB26158, 0x5005713C,
   0xEDB88320, 0xF00F9344, 0xD6D6A3E8, 0xCB61B38C,
   0x9B64C2B0, 0x86D3D2D4, 0xA00AE278, 0xBDBDF21C]

/-- One byte of the script's `crc32` loop (patch_app_header.py lines 42-44):
    two nibble steps, low nibble first. -/
def crc32ScriptUpdate (crc byte : Nat) : Nat :=
  let c1 := CRC_TABLE.getD ((crc ^^^ byte) &&& 0xF) 0 ^^^ (crc >>> 4)
  CRC_TABLE.getD ((c1 ^^^ (byte >>> 4)) &&& 0xF) 0 ^^^ (c1 >>> 4)

/-- `crc32` (patch_app_header.py lines 39-45). -/
def crc32Script (data : List Nat) : Nat :=
  (data.foldl crc32ScriptUpdate 0xFFFFFFFF) ^^^ 0xFFFFFFFF

/-! ### The script's table CRC equals the reference CRC -/

theorem shiftRight_xor_distrib (x y k : Nat) :
    (x ^^^ y) >>> k = (x >>> k) ^^^ (y >>> k) := by
  apply Nat.eq_of_testBit_eq
  intro i
  simp [Nat.testBit_shiftRight, Nat.testBit_xor]

theorem and_fifteen (x : Nat) : x &&& 15 = x % 16 := by
  rw [show (15 : Nat) = 2 ^ 4 - 1 from rfl, Nat.and_pow_two_sub_one_eq_mod]

theorem xor_mod_two (x y : Nat) : (x ^^^ y) % 2 = (x % 2) ^^^ (y % 2) := by
  have h1 : ∀ z : Nat, z % 2 = z &&& 1 := fun z => by
    rw [show (1 : Nat) = 2 ^ 1 - 1 from rfl, Nat.and_pow_two_sub_one_eq_mod]
  rw [h1 x, h1 y, h1 (x ^^^ y), Nat.and_xor_distrib_right]

theorem nat_xor_left_comm (a b c : Nat) : a ^^^ (b ^^^ c) = b ^^^ (a ^^^ c) := by
  rw [← Nat.xor_assoc, Nat.xor_comm a b, Nat.xor_assoc]

theorem crcBitStep_xor (x y : Nat) :
    crcBitStep (x ^^^ y) = crcBitStep x ^^^ crcBitStep y := by
  unfold crcBitStep
  have hxy : (x ^^^ y) % 2 = (x % 2) ^^^ (y % 2) := xor_mod_two x y
  rcases Nat.mod_two_eq_zero_or_one x with hx | hx <;>
    rcases Nat.mod_two_eq_zero_or_one y with hy | hy
  · have c1 : ¬ (x % 2 = 1) := by omega
    have c2 : ¬ (y % 2 = 1) := by omega
    have c3 : ¬ ((x ^^^ y) % 2 = 1) := by rw [hxy, hx, hy]; decide
    rw [if_neg c3, if_neg c1, if_neg c2, shiftRight_xor_distrib]
    simp
  · have c1 : ¬ (x % 2 = 1) := by omega
    have c3 : (x ^^^ y) % 2 = 1 := by rw [hxy, hx, hy]; decide
    rw [if_pos c3, if_neg c1, if_pos hy, shiftRight_xor_distrib]
    rw [Nat.xor_zero, Nat.xor_assoc]
  · have c2 : ¬ (y % 2 = 1) := by omega
    have c3 : (x ^^^ y) % 2 = 1 := by rw [hxy, hx, hy]; decide
    rw [if_pos c3, if_pos hx, if_neg c2, shiftRight_xor_distrib]
    rw [Nat.xor_zero, Nat.xor_assoc, Nat.xor_assoc,
      Nat.xor_comm 0xEDB88320 (y >>> 1)]
  · have c3 : ¬ ((x ^^^ y) % 2 = 1) := by rw [hxy, hx, hy]; decide
    rw [if_neg c3, if_pos hx, if_pos hy, shiftRight_xor_distrib, Nat.xor_zero]
    rw [Nat.xor_assoc (x >>> 1) 0xEDB88320 (y >>> 1 ^^^ 0xEDB88320),
      nat_xor_left_comm 0xEDB88320 (y >>> 1) 0xEDB88320,
      Nat.xor_self, Nat.xor_zero]

theorem crcBitStep_iterate_xor (k x y : Nat) :
    crcBitStep^[k] (x ^^^ y) = crcBitStep^[k] x ^^^ crcBitStep^[k] y := by
  induction k generalizing x y with
  | zero => rfl
  | succ k ih => rw [Function.iterate_succ_apply, Function.iterate_succ_apply,
      Function.iterate_succ_apply, crcBitStep_xor, ih]

theorem crcBitStep_double (k : Nat) : crcBitStep (2 * k) = k := by
  unfold crcBitStep
  have h1 : (2 * k) >>> 1 = k := by
    rw [Nat.shiftRight_eq_div_pow]
    omega
  have h2 : (2 * k) % 2 = 0 := by omega
  rw [h1, h2]
  simp

theorem crcBitStep4_shiftLeft (m : Nat) : crcBitStep^[4] (m <<< 4) = m := by
  have hexp : crcBitStep^[4] (m <<< 4)
      = crcBitStep (crcBitStep (crcBitStep (crcBitStep (m <<< 4)))) := by
    rfl
  have hm : m <<< 4 = 2 * (2 * (2 * (2 * m))) := by
    rw [Nat.shiftLeft_eq]
    ring
  rw [hexp, hm, crcBitStep_double, crcBitStep_double, crcBitStep_double, crcBitStep_double]

theorem crcBitStep4_small (n : Nat) (h : n < 16) :
    crcBitStep^[4] n = CRC_TABLE.getD n 0 := by
  interval_cases n <;> decide

theorem testBit_mod_sixteen (c i : Nat) :
    (c % 16).testBit i = (decide (i < 4) && c.testBit i) := by
  rw [show (16 : Nat) = 2 ^ 4 from rfl]
  exact Nat.testBit_mod_two_pow c 4 i

theorem mod_shift_split (c : Nat) : c = (c % 16) ^^^ ((c >>> 4) <<< 4) := by
  apply Nat.eq_of_testBit_eq
  intro i
  simp only [Nat.testBit_xor, testBit_mod_sixteen, Nat.testBit_shiftLeft,
    Nat.testBit_shiftRight]
  by_cases hi : i < 4
  · have hle : ¬ (4 ≤ i) := by omega
    simp [hi, hle]
  · have h4 : 4 + (i - 4) = i := by omega
    simp [hi, Nat.le_of_not_lt hi, h4]

theorem crcBitStep4_eq (c : Nat) :
    crcBitStep^[4] c = CRC_TABLE.getD (c % 16) 0 ^^^ (c >>> 4) := by
  conv_lhs => rw [mod_shift_split c]
  rw [crcBitStep_iterate_xor, crcBitStep4_small (c % 16) (Nat.mod_lt _ (by norm_num)),
    crcBitStep4_shiftLeft]

theorem crc32ScriptUpdate_eq (crc b : Nat) (hb : b < 256) :
    crc32ScriptUpdate crc b = crc32RefUpdate crc b := by
  unfold crc32ScriptUpdate crc32RefUpdate
  have h8 : crcBitStep^[8] (crc ^^^ b) = crcBitStep^[4] (crcBitStep^[4] (crc ^^^ b)) := by
    rw [← Function.iterate_add_apply]
  have hb44 : (b >>> 4) >>> 4 = 0 := by
    rw [Nat.shiftRight_eq_div_pow, Nat.shiftRight_eq_div_pow]
    omega
  rw [h8, crcBitStep4_eq (crc ^^^ b), crcBitStep4_eq]
  rw [shiftRight_xor_distrib crc b 4]
  simp only [and_fifteen]
  rw [← Nat.xor_assoc, shiftRight_xor_distrib _ (b >>> 4) 4, hb44, Nat.xor_zero]

theorem crc32Script_eq_ref (data : List Nat) (h : ∀ b ∈ data, b < 256) :
    crc32Script data = crc32Ref data := by
  unfold crc32Script crc32Ref
  congr 1
  have key : ∀ (l : List Nat), (∀ b ∈ l, b < 256) →
      ∀ acc, l.foldl crc32ScriptUpdate acc = l.foldl crc32RefUpdate acc := by
    intro l
    induction l with
    | nil => intro _ _; rfl
    | cons b rest ih =>
      intro hl acc
      rw [List.foldl_cons, List.foldl_cons,
        crc32ScriptUpdate_eq acc b (hl b (List.mem_cons_self b rest))]
      exact ih (fun x hx => hl x (List.mem_cons_of_mem b hx)) _
  exact key data h 0xFFFFFFFF

/-! ### Application-header parse / pack (patch_app_header.py lines 47-93) -/

/-- `bytes.rstrip(b'\x00')`: drop trailing zero bytes. -/
def rstripZeros (l : List Nat) : List Nat :=
  (l.reverse.dropWhile (fun b => b == 0)).reverse

/-- struct `'<I'` read at byte offset `i` (little-endian). -/
def read32 (l : List Nat) (i : Nat) : Nat :=
  l.getD i 0 + 256 * l.getD (i + 1) 0 + 65536 * l.getD (i + 2) 0
    + 16777216 * l.getD (i + 3) 0

/-- `parse_header` (patch_app_header.py lines 47-71): format
    `'<I B B B B B B B B I I I I 16s I'`; `build_id` is kept as its raw bytes
    with trailing NULs stripped (`rstrip(b'\x00')`). -/
structure AppHeader where
  magic : Nat
  headerVersion : Nat
  deviceType : Nat
  hwRevisionMin : Nat
  hwRevisionMax : Nat
  fwVersionMajor : Nat
  fwVersionMinor : Nat
  fwVersionPatch : Nat
  fwFlags : Nat
  fwSize : Nat
  fwCrc32 : Nat
  fwLoadAddr : Nat
  buildTimestamp : Nat
  buildId : List Nat
  headerCrc32 : Nat
deriving DecidableEq, Repr

def parseAppHeader (b : List Nat) : AppHeader :=
  { magic := read32 b 0,
    headerVersion := b.getD 4 0,
    deviceType := b.getD 5 0,
    hwRevisionMin := b.getD 6 0,
    hwRevisionMax := b.getD 7 0,
    fwVersionMajor := b.getD 8 0,
    fwVersionMinor := b.getD 9 0,
    fwVersionPatch := b.getD 10 0,
    fwFlags := b.getD 11 0,
    fwSize := read32 b 12,
    fwCrc32 := read32 b 16,
    fwLoadAddr := read32 b 20,
    buildTimestamp := read32 b 24,
    buildId := rstripZeros ((b.drop 28).take 16),
    headerCrc32 := read32 b 44 }

/-- The first 44 bytes of `pack_header`'s output: every field except
    `header_crc32`.  `build_id.encode('ascii')[:16].ljust(16, b'\x00')`
    becomes take-16 plus NUL padding. -/
def packPrefix (h : AppHeader) : List Nat :=
  le32 h.magic
    ++ [h.headerVersion, h.deviceType, h.hwRevisionMin, h.hwRevisionMax,
        h.fwVersionMajor, h.fwVersionMinor, h.fwVersionPatch, h.fwFlags]
    ++ le32 h.fwSize ++ le32 h.fwCrc32 ++ le32 h.fwLoadAddr ++ le32 h.buildTimestamp
    ++ (h.buildId.take 16 ++ List.replicate (16 - h.buildId.length) 0)

/-- The field ranges under which `pack_header` does not raise:
    `struct.pack` rejects out-of-range `B`/`I` values, and
    `build_id.encode('ascii')` raises on the replacement characters produced
    for bytes ≥ 0x80 by `decode('ascii', errors='replace')`. -/
def packOk (h : AppHeader) : Prop :=
  h.magic < 2 ^ 32 ∧ h.headerVersion < 256 ∧ h.deviceType < 256
    ∧ h.hwRevisionMin < 256 ∧ h.hwRevisionMax < 256 ∧ h.fwVersionMajor < 256
    ∧ h.fwVersionMinor < 256 ∧ h.fwVersionPatch < 256 ∧ h.fwFlags < 256
    ∧ h.fwSize < 2 ^ 32 ∧ h.fwCrc32 < 2 ^ 32 ∧ h.fwLoadAddr < 2 ^ 32
    ∧ h.buildTimestamp < 2 ^ 32 ∧ h.headerCrc32 < 2 ^ 32
    ∧ (∀ b ∈ h.buildId, b < 128)

instance (h : AppHeader) : Decidable (packOk h) := by
  unfold packOk; infer_instance

/-- `pack_header` (patch_app_header.py lines 73-93). -/
def packAppHeader (h : AppHeader) : Option (List Nat) :=
  if packOk h then some (packPrefix h ++ le32 h.headerCrc32) else none

/-- `find_header_offset`'s scan loop (patch_app_header.py lines 95-103):
    4-byte strides while `offset <= len(data) - APP_HEADER_SIZE`.  The loop
    advances by 4 while the bound holds, so it performs at most
    `len(data)` iterations; `fuel` bounds the recursion structurally and
    `scanMagic` supplies enough of it for the loop never to be cut short. -/
def scanMagicF : Nat → List Nat → Nat → Option Nat
  | 0, _, _ => none
  | fuel + 1, data, offset =>
    if offset + APP_HEADER_SIZE ≤ data.length then
      if (data.drop offset).take 4 = APP_HEADER_MAGIC_BYTES then some offset
      else scanMagicF fuel data (offset + 4)
    else none

def scanMagic (data : List Nat) (offset : Nat) : Option Nat :=
  scanMagicF (data.length + 1) data offset

/-- `data[off : off + len(repl)] = repl` on a bytearray. -/
def splice (data : List Nat) (off : Nat) (repl : List Nat) : List Nat :=
  data.take off ++ repl ++ data.drop (off + repl.length)

/-- `patch_binary` (patch_app_header.py lines 105-168), on the in-memory
    bytes: locate the header, set `fw_size`, compute `fw_crc32` over the
    binary with both CRC fields at `0xFFFFFFFF`, compute `header_crc32` over
    the first 44 header bytes, write the final header back.  `none` models
    every exit without an output file: `return False` (magic not found, short
    binary) and an uncaught `struct.error`/`UnicodeEncodeError` from
    `pack_header`. -/
def patchBinary (data : List Nat) : Option (List Nat) :=
  match scanMagic data 0 with
  | none => none
  | some off =>
    if data.length < off + APP_HEADER_SIZE then none
    else
      let hdr0 := parseAppHeader ((data.drop off).take APP_HEADER_SIZE)
      let hdr1 := { hdr0 with fwSize := data.length }
      match packAppHeader { hdr1 with fwCrc32 := 0xFFFFFFFF, headerCrc32 := 0xFFFFFFFF } with
      | none => none
      | some tempBytes =>
        let fwCrc := crc32Script (splice data off tempBytes)
        let hdr2 := { hdr1 with fwCrc32 := fwCrc }
        match packAppHeader hdr2 with
        | none => none
        | some hdr2Bytes =>
          let headerCrc := crc32Script (hdr2Bytes.take 44)
          match packAppHeader { hdr2 with headerCrc32 := headerCrc } with
          | none => none
          | some finalBytes => some (splice data off finalBytes)

/-! ### List splicing lemmas -/

theorem take_app_len {l1 l2 : List Nat} {k n : Nat} (h : l1.length = k) :
    (l1 ++ l2).take (k + n) = l1 ++ l2.take n := by
  rw [List.take_append_eq_append_take, h]
  congr 1
  · apply List.take_of_length_le
    omega
  · congr 1
    omega

theorem drop_app_len {l1 l2 : List Nat} {k n : Nat} (h : l1.length = k) :
    (l1 ++ l2).drop (k + n) = l2.drop n := by
  rw [List.drop_append_eq_append_drop, h]
  have h2 : k + n - k = n := by omega
  have hnil : l1.drop (k + n) = [] := List.drop_eq_nil_iff.mpr (by omega)
  rw [h2, hnil, List.nil_append]

theorem splice_length {data repl : List Nat} {off : Nat}
    (h : off + repl.length ≤ data.length) :
    (splice data off repl).length = data.length := by
  simp only [splice, List.length_append, List.length_take, List.length_drop]
  omega

theorem splice_take {data repl : List Nat} {off : Nat} (h : off ≤ data.length) :
    (splice data off repl).take off = data.take off := by
  unfold splice
  rw [List.append_assoc]
  exact List.take_left' (by rw [List.length_take]; omega)

theorem splice_drop {data repl : List Nat} {off : Nat} (h : off ≤ data.length) :
    (splice data off repl).drop (off + repl.length) = data.drop (off + repl.length) := by
  unfold splice
  rw [List.append_assoc]
  rw [drop_app_len (by rw [List.length_take]; omega)]
  exact List.drop_left' rfl

theorem splice_slice {data repl : List Nat} {off : Nat} (h : off ≤ data.length) :
    ((splice data off repl).drop off).take repl.length = repl := by
  unfold splice
  rw [List.append_assoc]
  rw [List.drop_left' (by rw [List.length_take]; omega)]
  exact List.take_left' rfl

theorem splice_splice {data r1 r2 : List Nat} {off : Nat} (hlen : r1.length = r2.length)
    (h : off ≤ data.length) :
    splice (splice data off r1) off r2 = splice data off r2 := by
  unfold splice
  congr 1
  · congr 1
    rw [List.append_assoc]
    exact List.take_left' (by rw [List.length_take]; omega)
  · rw [List.append_assoc]
    rw [show off + r2.length = off + r2.length from rfl]
    rw [← hlen]
    rw [drop_app_len (by rw [List.length_take]; omega)]
    exact List.drop_left' rfl

/-! ### Pack output shape -/

theorem le32_length (n : Nat) : (le32 n).length = 4 := rfl

theorem packPrefix_length (h : AppHeader) : (packPrefix h).length = 44 := by
  simp only [packPrefix, List.length_append, le32_length, List.length_cons,
    List.length_nil, List.length_take, List.length_replicate]
  omega

theorem packAppHeader_length {h : AppHeader} {b : List Nat}
    (hp : packAppHeader h = some b) : b.length = 48 := by
  unfold packAppHeader at hp
  split at hp
  · cases hp
    simp only [List.length_append, packPrefix_length, le32_length]
  · cases hp

theorem le32_bytes (n : Nat) : ∀ x ∈ le32 n, x < 256 := by
  intro x hx
  simp only [le32, List.mem_cons, List.not_mem_nil, or_false] at hx
  rcases hx with rfl | rfl | rfl | rfl <;> omega

theorem packAppHeader_bytes {h : AppHeader} {b : List Nat}
    (hp : packAppHeader h = some b) : ∀ x ∈ b, x < 256 := by
  unfold packAppHeader at hp
  split at hp
  · rename_i hok
    cases hp
    intro x hx
    rcases List.mem_append.mp hx with hx | hx
    · unfold packPrefix at hx
      rcases List.mem_append.mp hx with hx | hx
      · rcases List.mem_append.mp hx with hx | hx
        · rcases List.mem_append.mp hx with hx | hx
          · rcases List.mem_append.mp hx with hx | hx
            · rcases List.mem_append.mp hx with hx | hx
              · rcases List.mem_append.mp hx with hx | hx
                · exact le32_bytes _ x hx
                · simp only [List.mem_cons, List.not_mem_nil, or_false] at hx
                  obtain ⟨h1, h2, h3, h4, h5, h6, h7, h8, h9, h10, h11, h12, h13, h14, h15⟩
                    := hok
                  rcases hx with rfl | rfl | rfl | rfl | rfl | rfl | rfl | rfl <;> omega
              · exact le32_bytes _ x hx
            · exact le32_bytes _ x hx
          · exact le32_bytes _ x hx
        · exact le32_bytes _ x hx
      · rcases List.mem_append.mp hx with hx | hx
        · obtain ⟨h1, h2, h3, h4, h5, h6, h7, h8, h9, h10, h11, h12, h13, h14, h15⟩ := hok
          have := h15 x (List.mem_of_mem_take hx)
          omega
        · rw [List.eq_of_mem_replicate hx]
          omega
    · exact le32_bytes _ x hx
  · cases hp

/-! ### `scanMagic` returns the first aligned magic occurrence -/

theorem scanMagicF_some_spec :
    ∀ (fuel : Nat) (data : List Nat) (o off : Nat),
      scanMagicF fuel data o = some off →
      o ≤ off ∧ (off - o) % 4 = 0 ∧ off + APP_HEADER_SIZE ≤ data.length
      ∧ (data.drop off).take 4 = APP_HEADER_MAGIC_BYTES
      ∧ ∀ o2, o ≤ o2 → o2 < off → (o2 - o) % 4 = 0 →
          ¬ (data.drop o2).take 4 = APP_HEADER_MAGIC_BYTES := by
  intro fuel
  induction fuel with
  | zero =>
    intro data o off h
    simp [scanMagicF] at h
  | succ fuel ih =>
    intro data o off h
    unfold scanMagicF at h
    split at h
    · rename_i hg
      split at h
      · rename_i hmag
        cases h
        refine ⟨Nat.le_refl _, by omega, hg, hmag, ?_⟩
        intro o2 h1 h2 _
        omega
      · rename_i hmag
        have hrec := ih data (o + 4) off h
        refine ⟨by omega, by omega, hrec.2.2.1, hrec.2.2.2.1, ?_⟩
        intro o2 ho2 hlt hal
        by_cases he : o2 = o
        · subst he
          exact hmag
        · exact hrec.2.2.2.2 o2 (by omega) hlt (by omega)
    · cases h

theorem scanMagic_some_spec (data : List Nat) (o off : Nat)
    (h : scanMagic data o = some off) :
    o ≤ off ∧ (off - o) % 4 = 0 ∧ off + APP_HEADER_SIZE ≤ data.length
    ∧ (data.drop off).take 4 = APP_HEADER_MAGIC_BYTES
    ∧ ∀ o2, o ≤ o2 → o2 < off → (o2 - o) % 4 = 0 →
        ¬ (data.drop o2).take 4 = APP_HEADER_MAGIC_BYTES :=
  scanMagicF_some_spec (data.length + 1) data o off h

theorem scanMagicF_of (data : List Nat) (off : Nat)
    (hguard : off + APP_HEADER_SIZE ≤ data.length)
    (hmag : (data.drop off).take 4 = APP_HEADER_MAGIC_BYTES) :
    ∀ (fuel : Nat) (o : Nat), o ≤ off → (off - o) % 4 = 0 →
      (∀ o2, o ≤ o2 → o2 < off → (o2 - o) % 4 = 0 →
        ¬ (data.drop o2).take 4 = APP_HEADER_MAGIC_BYTES) →
      (off - o) / 4 < fuel →
      scanMagicF fuel data o = some off := by
  intro fuel
  induction fuel with
  | zero =>
    intro o _ _ _ hf
    omega
  | succ fuel ih =>
    intro o ho hal hmin hf
    unfold scanMagicF
    have hg : o + APP_HEADER_SIZE ≤ data.length := by omega
    rw [if_pos hg]
    by_cases he : o = off
    · subst he
      rw [if_pos hmag]
    · have hnm : ¬ (data.drop o).take 4 = APP_HEADER_MAGIC_BYTES :=
        hmin o (Nat.le_refl o) (by omega) (by omega)
      rw [if_neg hnm]
      refine ih (o + 4) (by omega) (by omega) ?_ (by omega)
      intro o2 h2 h3 h4
      exact hmin o2 (by omega) h3 (by omega)

theorem scanMagic_of (data : List Nat) (off : Nat)
    (hguard : off + APP_HEADER_SIZE ≤ data.length)
    (hmag : (data.drop off).take 4 = APP_HEADER_MAGIC_BYTES)
    (hmin : ∀ o2, o2 < off → o2 % 4 = 0 →
      ¬ (data.drop o2).take 4 = APP_HEADER_MAGIC_BYTES)
    (hal : off % 4 = 0) :
    scanMagic data 0 = some off := by
  unfold scanMagic
  refine scanMagicF_of data off hguard hmag (data.length + 1) 0 (Nat.zero_le _)
    (by omega) ?_ (by simp only [APP_HEADER_SIZE] at hguard; omega)
  intro o2 _ h3 h4
  exact hmin o2 h3 (by omega)

/-! ### Success characterization of `patch_binary` -/

theorem patchBinary_some_elim {data out : List Nat} (h : patchBinary data = some out) :
    ∃ off tempBytes hdr2Bytes finalBytes,
      scanMagic data 0 = some off
      ∧ off + APP_HEADER_SIZE ≤ data.length
      ∧ packAppHeader { parseAppHeader ((data.drop off).take APP_HEADER_SIZE) with
            fwSize := data.length, fwCrc32 := 0xFFFFFFFF, headerCrc32 := 0xFFFFFFFF }
          = some tempBytes
      ∧ packAppHeader { parseAppHeader ((data.drop off).take APP_HEADER_SIZE) with
            fwSize := data.length, fwCrc32 := crc32Script (splice data off tempBytes) }
          = some hdr2Bytes
      ∧ packAppHeader { parseAppHeader ((data.drop off).take APP_HEADER_SIZE) with
            fwSize := data.length, fwCrc32 := crc32Script (splice data off tempBytes),
            headerCrc32 := crc32Script (hdr2Bytes.take 44) }
          = some finalBytes
      ∧ out = splice data off finalBytes := by
  unfold patchBinary at h
  split at h
  · cases h
  · rename_i off hscan
    split at h
    · cases h
    · rename_i hlen
      simp only [] at h
      split at h
      · cases h
      · rename_i tempBytes htemp
        split at h
        · cases h
        · rename_i hdr2Bytes hhdr2
          split at h
          · cases h
          · rename_i finalBytes hfinal
            cases h
            exact ⟨off, tempBytes, hdr2Bytes, finalBytes, hscan, by omega,
              htemp, hhdr2, hfinal, rfl⟩

/-- C10: `patch_binary` modifies only the 48 header bytes.  On success the
    output has the input's length and agrees with the input before `off` and
    from `off + 48` on, where `off` is the smallest multiple of 4 at which the
    magic bytes occur with at least 48 bytes remaining. -/
theorem c10_frame_effect (data out : List Nat) (h : patchBinary data = some out) :
    ∃ off, scanMagic data 0 = some off
      ∧ off % 4 = 0
      ∧ off + APP_HEADER_SIZE ≤ data.length
      ∧ (data.drop off).take 4 = APP_HEADER_MAGIC_BYTES
      ∧ (∀ off2, off2 % 4 = 0 → off2 < off →
          ¬ ((data.drop off2).take 4 = APP_HEADER_MAGIC_BYTES
             ∧ off2 + APP_HEADER_SIZE ≤ data.length))
      ∧ out.length = data.length
      ∧ out.take off = data.take off
      ∧ out.drop (off + APP_HEADER_SIZE) = data.drop (off + APP_HEADER_SIZE) := by
  obtain ⟨off, tempBytes, hdr2Bytes, finalBytes, hscan, hlen, _, _, hfinal, hout⟩ :=
    patchBinary_some_elim h
  have hspec := scanMagic_some_spec data 0 off hscan
  have hfb : finalBytes.length = 48 := packAppHeader_length hfinal
  have hsp : off + finalBytes.length ≤ data.length := by
    rw [hfb]
    simpa [APP_HEADER_SIZE] using hlen
  refine ⟨off, hscan, by simpa using hspec.2.1, hspec.2.2.1, hspec.2.2.2.1, ?_, ?_, ?_, ?_⟩
  · intro off2 hal hlt hcontra
    exact hspec.2.2.2.2 off2 (by omega) hlt (by simpa using hal) hcontra.1
  · rw [hout]
    exact splice_length hsp
  · rw [hout]
    exact splice_take (by omega)
  · rw [hout]
    have heq : off + APP_HEADER_SIZE = off + finalBytes.length := by
      simp [APP_HEADER_SIZE, hfb]
    rw [heq]
    exact splice_drop (by omega)

/-- Concrete fixture for C9/C10: a 64-byte binary whose application header
    sits at offset 8 (aligned), with the placeholder CRC fields. -/
def patchInput : List Nat :=
  [0, 0, 0, 0, 0, 0, 0, 0]
    ++ APP_HEADER_MAGIC_BYTES ++ [1, 2, 0, 255, 1, 0, 0, 0]
    ++ le32 0xFFFFFFFF ++ le32 0xFFFFFFFF ++ le32 0x08000000 ++ le32 0
    ++ ([116, 101, 115, 116] ++ List.replicate 12 0) ++ le32 0xFFFFFFFF
    ++ List.replicate 8 0xAA

/-- The patched output of `patchInput`, as computed by `patch_binary`:
    `fw_size = 64`, `fw_crc32 = 0x55FFA26F`, `header_crc32 = 0x553CB066`. -/
def patchOutput : List Nat :=
  [0, 0, 0, 0, 0, 0, 0, 0]
    ++ [65, 71, 83, 89] ++ [1, 2, 0, 255, 1, 0, 0, 0]
    ++ [64, 0, 0, 0] ++ [111, 162, 255, 85] ++ [0, 0, 0, 8] ++ [0, 0, 0, 0]
    ++ [116, 101, 115, 116] ++ List.replicate 12 0
    ++ [102, 176, 60, 85] ++ List.replicate 8 0xAA

/-- Witness for C10 at the concrete fixture. -/
theorem c10_frame_effect_witness :
    ∃ off, scanMagic patchInput 0 = some off
      ∧ off % 4 = 0
      ∧ off + APP_HEADER_SIZE ≤ patchInput.length
      ∧ (patchInput.drop off).take 4 = APP_HEADER_MAGIC_BYTES
      ∧ (∀ off2, off2 % 4 = 0 → off2 < off →
          ¬ ((patchInput.drop off2).take 4 = APP_HEADER_MAGIC_BYTES
             ∧ off2 + APP_HEADER_SIZE ≤ patchInput.length))
      ∧ patchOutput.length = patchInput.length
      ∧ patchOutput.take off = patchInput.take off
      ∧ patchOutput.drop (off + APP_HEADER_SIZE)
          = patchInput.drop (off + APP_HEADER_SIZE) :=
  c10_frame_effect patchInput patchOutput (by decide)

/-! ### Lemmas towards C9 -/

theorem packAppHeader_ok {h : AppHeader} {b : List Nat}
    (hp : packAppHeader h = some b) :
    packOk h ∧ b = packPrefix h ++ le32 h.headerCrc32 := by
  unfold packAppHeader at hp
  split at hp
  · cases hp
    exact ⟨by assumption, rfl⟩
  · cases hp

theorem crcTable_getD_lt (i : Nat) : CRC_TABLE.getD i 0 < 2 ^ 32 := by
  by_cases hi : i < CRC_TABLE.length
  · have hi16 : i < 16 := by
      rw [show CRC_TABLE.length = 16 from rfl] at hi
      exact hi
    interval_cases i <;> decide
  · rw [List.getD_eq_default _ _ (by omega)]
    decide

theorem shiftRight_le (x k : Nat) : x >>> k ≤ x := by
  rw [Nat.shiftRight_eq_div_pow]
  exact Nat.div_le_self x (2 ^ k)

theorem crc32ScriptUpdate_lt {acc : Nat} (b : Nat) (h : acc < 2 ^ 32) :
    crc32ScriptUpdate acc b < 2 ^ 32 := by
  unfold crc32ScriptUpdate
  refine Nat.xor_lt_two_pow (crcTable_getD_lt _) ?_
  refine Nat.lt_of_le_of_lt (shiftRight_le _ 4) ?_
  exact Nat.xor_lt_two_pow (crcTable_getD_lt _) (Nat.lt_of_le_of_lt (shiftRight_le _ 4) h)

theorem crc32Script_lt (l : List Nat) : crc32Script l < 2 ^ 32 := by
  unfold crc32Script
  refine Nat.xor_lt_two_pow ?_ (by decide)
  have key : ∀ (l2 : List Nat) (acc : Nat), acc < 2 ^ 32 →
      l2.foldl crc32ScriptUpdate acc < 2 ^ 32 := by
    intro l2
    induction l2 with
    | nil => exact fun _ h => h
    | cons b rest ih =>
      intro acc hacc
      rw [List.foldl_cons]
      exact ih _ (crc32ScriptUpdate_lt b hacc)
  exact key l 0xFFFFFFFF (by decide)

theorem getD_app_len {l1 l2 : List Nat} {k n d : Nat} (h : l1.length = k) :
    (l1 ++ l2).getD (k + n) d = l2.getD n d := by
  rw [List.getD_append_right _ _ _ _ (by omega), h]
  congr 1
  omega

theorem read32_append {l1 l2 : List Nat} {k : Nat} (h : l1.length = k) :
    read32 (l1 ++ l2) k = read32 l2 0 := by
  unfold read32
  rw [List.getD_append_right _ _ _ _ (by omega), List.getD_append_right _ _ _ _ (by omega),
    List.getD_append_right _ _ _ _ (by omega), List.getD_append_right _ _ _ _ (by omega), h]
  have e0 : k - k = 0 := by omega
  have e1 : k + 1 - k = 1 := by omega
  have e2 : k + 2 - k = 2 := by omega
  have e3 : k + 3 - k = 3 := by omega
  rw [e0, e1, e2, e3]

theorem read32_le32 {v : Nat} (hv : v < 2 ^ 32) (rest : List Nat) :
    read32 (le32 v ++ rest) 0 = v := by
  simp only [read32, le32, List.cons_append, List.getD_cons_zero, List.getD_cons_succ]
  omega

theorem read32_of_take4 {l : List Nat} {a b c d : Nat}
    (h : l.take 4 = [a, b, c, d]) :
    read32 l 0 = a + 256 * b + 65536 * c + 16777216 * d := by
  have hl : l = [a, b, c, d] ++ l.drop 4 := by
    conv_lhs => rw [← List.take_append_drop 4 l]
    rw [h]
  rw [hl]
  simp only [read32, List.cons_append, List.getD_cons_zero, List.getD_cons_succ]

theorem pack_fields {h : AppHeader} {b : List Nat} (hp : packAppHeader h = some b) :
    b.take 4 = le32 h.magic
    ∧ read32 b 12 = h.fwSize
    ∧ read32 b 16 = h.fwCrc32
    ∧ read32 b 44 = h.headerCrc32
    ∧ b.take 44 = packPrefix h := by
  obtain ⟨hok, hb⟩ := packAppHeader_ok hp
  obtain ⟨h1, h2, h3, h4, h5, h6, h7, h8, h9, h10, h11, h12, h13, h14, h15⟩ := hok
  refine ⟨?_, ?_, ?_, ?_, ?_⟩
  · have hb4 : b = le32 h.magic
        ++ ([h.headerVersion, h.deviceType, h.hwRevisionMin, h.hwRevisionMax,
             h.fwVersionMajor, h.fwVersionMinor, h.fwVersionPatch, h.fwFlags]
          ++ (le32 h.fwSize ++ (le32 h.fwCrc32 ++ (le32 h.fwLoadAddr
          ++ (le32 h.buildTimestamp
          ++ ((h.buildId.take 16 ++ List.replicate (16 - h.buildId.length) 0)
          ++ le32 h.headerCrc32)))))) := by
      rw [hb]
      simp [packPrefix, List.append_assoc]
    rw [hb4]
    exact List.take_left' (le32_length _)
  · have hb12 : b = (le32 h.magic
        ++ [h.headerVersion, h.deviceType, h.hwRevisionMin, h.hwRevisionMax,
            h.fwVersionMajor, h.fwVersionMinor, h.fwVersionPatch, h.fwFlags])
        ++ (le32 h.fwSize ++ (le32 h.fwCrc32 ++ (le32 h.fwLoadAddr
          ++ (le32 h.buildTimestamp
          ++ ((h.buildId.take 16 ++ List.replicate (16 - h.buildId.length) 0)
          ++ le32 h.headerCrc32))))) := by
      rw [hb]
      simp [packPrefix, List.append_assoc]
    rw [hb12, read32_append (by simp [le32]), read32_le32 h10]
  · have hb16 : b = ((le32 h.magic
        ++ [h.headerVersion, h.deviceType, h.hwRevisionMin, h.hwRevisionMax,
            h.fwVersionMajor, h.fwVersionMinor, h.fwVersionPatch, h.fwFlags])
        ++ le32 h.fwSize)
        ++ (le32 h.fwCrc32 ++ (le32 h.fwLoadAddr
          ++ (le32 h.buildTimestamp
          ++ ((h.buildId.take 16 ++ List.replicate (16 - h.buildId.length) 0)
          ++ le32 h.headerCrc32)))) := by
      rw [hb]
      simp [packPrefix, List.append_assoc]
    rw [hb16, read32_append (by simp [le32]), read32_le32 h11]
  · rw [hb, read32_append (packPrefix_length h)]
    rw [← List.append_nil (le32 h.headerCrc32), read32_le32 h14]
  · rw [hb]
    exact List.take_left' (packPrefix_length h)

theorem dropWhile_dropWhile (p : Nat → Bool) (l : List Nat) :
    List.dropWhile p (List.dropWhile p l) = List.dropWhile p l := by
  induction l with
  | nil => rfl
  | cons a t ih =>
    by_cases hp : p a
    · simp [List.dropWhile_cons, hp, ih]
    · simp [List.dropWhile_cons, hp]

theorem rstripZeros_idem (l : List Nat) : rstripZeros (rstripZeros l) = rstripZeros l := by
  unfold rstripZeros
  rw [List.reverse_reverse, dropWhile_dropWhile]

theorem dropWhile_zero_replicate (k : Nat) (x : List Nat) :
    List.dropWhile (fun b => b == 0) (List.replicate k 0 ++ x)
      = List.dropWhile (fun b => b == 0) x := by
  induction k with
  | zero => rfl
  | succ k ih => simp [List.replicate_succ, List.dropWhile_cons, ih]

theorem rstripZeros_append_replicate (l : List Nat) (k : Nat) :
    rstripZeros (l ++ List.replicate k 0) = rstripZeros l := by
  unfold rstripZeros
  rw [List.reverse_append, List.reverse_replicate, dropWhile_zero_replicate]

theorem length_dropWhile_le_self (p : Nat → Bool) (x : List Nat) :
    (List.dropWhile p x).length ≤ x.length := by
  induction x with
  | nil => simp
  | cons a t ih =>
    by_cases hp : p a
    · simp only [List.dropWhile_cons, hp, if_true, List.length_cons]
      omega
    · simp [List.dropWhile_cons, hp]

theorem rstripZeros_length_le (l : List Nat) : (rstripZeros l).length ≤ l.length := by
  unfold rstripZeros
  rw [List.length_reverse]
  calc (List.dropWhile (fun b => b == 0) l.reverse).length
      ≤ l.reverse.length := length_dropWhile_le_self _ _
    _ = l.length := List.length_reverse l

/-- Parsing a successfully packed header recovers it, provided its `build_id`
    fits in 16 bytes with no trailing NULs (as produced by `parse_header`). -/
theorem parse_pack {h : AppHeader} {b : List Nat} (hp : packAppHeader h = some b)
    (hbid : rstripZeros h.buildId = h.buildId) (hlen16 : h.buildId.length ≤ 16) :
    parseAppHeader b = h := by
  obtain ⟨hok, hb⟩ := packAppHeader_ok hp
  obtain ⟨m, hv, dt, rmin, rmax, vM, vm, vp, ff, fs, fc, la, ts, bid, hc⟩ := h
  obtain ⟨h1, h2, h3, h4, h5, h6, h7, h8, h9, h10, h11, h12, h13, h14, h15⟩ := hok
  simp only [] at h1 h2 h3 h4 h5 h6 h7 h8 h9 h10 h11 h12 h13 h14 h15 hb hbid hlen16
  have hcons : b = m % 256 :: m / 256 % 256 :: m / 65536 % 256 :: m / 16777216 % 256
      :: hv :: dt :: rmin :: rmax :: vM :: vm :: vp :: ff
      :: fs % 256 :: fs / 256 % 256 :: fs / 65536 % 256 :: fs / 16777216 % 256
      :: fc % 256 :: fc / 256 % 256 :: fc / 65536 % 256 :: fc / 16777216 % 256
      :: la % 256 :: la / 256 % 256 :: la / 65536 % 256 :: la / 16777216 % 256
      :: ts % 256 :: ts / 256 % 256 :: ts / 65536 % 256 :: ts / 16777216 % 256
      :: ((bid.take 16 ++ List.replicate (16 - bid.length) 0) ++ le32 hc) := by
    rw [hb]
    simp [packPrefix, le32, List.cons_append, List.nil_append, List.append_assoc]
  have hbid16 : bid.take 16 ++ List.replicate (16 - bid.length) 0
      = bid ++ List.replicate (16 - bid.length) 0 := by
    rw [List.take_of_length_le hlen16]
  have hbidlen : (bid.take 16 ++ List.replicate (16 - bid.length) 0).length = 16 := by
    simp only [List.length_append, List.length_take, List.length_replicate]
    omega
  simp only [parseAppHeader, AppHeader.mk.injEq]
  refine ⟨?_, ?_, ?_, ?_, ?_, ?_, ?_, ?_, ?_, ?_, ?_, ?_, ?_, ?_, ?_⟩
  · rw [hcons]
    simp only [read32, List.getD_cons_zero, List.getD_cons_succ]
    omega
  · rw [hcons]
    simp only [List.getD_cons_succ, List.getD_cons_zero]
  · rw [hcons]
    simp only [List.getD_cons_succ, List.getD_cons_zero]
  · rw [hcons]
    simp only [List.getD_cons_succ, List.getD_cons_zero]
  · rw [hcons]
    simp only [List.getD_cons_succ, List.getD_cons_zero]
  · rw [hcons]
    simp only [List.getD_cons_succ, List.getD_cons_zero]
  · rw [hcons]
    simp only [List.getD_cons_succ, List.getD_cons_zero]
  · rw [hcons]
    simp only [List.getD_cons_succ, List.getD_cons_zero]
  · rw [hcons]
    simp only [List.getD_cons_succ, List.getD_cons_zero]
  · rw [hcons]
    simp only [read32, List.getD_cons_zero, List.getD_cons_succ]
    omega
  · rw [hcons]
    simp only [read32, List.getD_cons_zero, List.getD_cons_succ]
    omega
  · rw [hcons]
    simp only [read32, List.getD_cons_zero, List.getD_cons_succ]
    omega
  · rw [hcons]
    simp only [read32, List.getD_cons_zero, List.getD_cons_succ]
    omega
  · rw [hcons]
    simp only [List.drop_succ_cons, List.drop_zero]
    rw [List.take_left' hbidlen, hbid16, rstripZeros_append_replicate, hbid]
  · rw [hb, read32_append (packPrefix_length _)]
    rw [← List.append_nil (le32 hc), read32_le32 h14]

theorem take_app_le {l1 l2 : List Nat} {n : Nat} (h : n ≤ l1.length) :
    (l1 ++ l2).take n = l1.take n := by
  rw [List.take_append_eq_append_take, Nat.sub_eq_zero_of_le h, List.take_zero,
    List.append_nil]

theorem drop_app_le {l1 l2 : List Nat} {n : Nat} (h : n ≤ l1.length) :
    (l1 ++ l2).drop n = l1.drop n ++ l2 := by
  rw [List.drop_append_eq_append_drop, Nat.sub_eq_zero_of_le h, List.drop_zero]

theorem splice_nest {data repl r2 : List Nat} {off k : Nat}
    (hk : k + r2.length ≤ repl.length) (hoff : off ≤ data.length) :
    splice (splice data off repl) (off + k) r2 = splice data off (splice repl k r2) := by
  have hA : (data.take off).length = off := by
    rw [List.length_take]
    omega
  have h1 : (splice data off repl).take (off + k) = data.take off ++ repl.take k := by
    unfold splice
    rw [List.append_assoc, take_app_len hA, take_app_le (by omega)]
  have h2 : (splice data off repl).drop (off + k + r2.length)
      = repl.drop (k + r2.length) ++ data.drop (off + repl.length) := by
    unfold splice
    rw [List.append_assoc]
    rw [show off + k + r2.length = off + (k + r2.length) from by omega]
    rw [drop_app_len hA, drop_app_le hk]
  have hR : splice data off (splice repl k r2)
      = data.take off ++ ((repl.take k ++ r2) ++ repl.drop (k + r2.length))
          ++ data.drop (off + repl.length) := by
    show data.take off ++ splice repl k r2
        ++ data.drop (off + (splice repl k r2).length) = _
    rw [splice_length hk]
    rfl
  calc splice (splice data off repl) (off + k) r2
      = (splice data off repl).take (off + k) ++ r2
          ++ (splice data off repl).drop (off + k + r2.length) := rfl
    _ = (data.take off ++ repl.take k) ++ r2
          ++ (repl.drop (k + r2.length) ++ data.drop (off + repl.length)) := by
        rw [h1, h2]
    _ = data.take off ++ ((repl.take k ++ r2) ++ repl.drop (k + r2.length))
          ++ data.drop (off + repl.length) := by
        simp [List.append_assoc]
    _ = splice data off (splice repl k r2) := hR.symm

theorem pack_set_crcs {h : AppHeader} {b bt : List Nat}
    (hpb : packAppHeader h = some b)
    (hpt : packAppHeader { h with fwCrc32 := 0xFFFFFFFF, headerCrc32 := 0xFFFFFFFF }
      = some bt) :
    bt = splice (splice b 16 (le32 0xFFFFFFFF)) 44 (le32 0xFFFFFFFF) := by
  obtain ⟨hokb, hbb⟩ := packAppHeader_ok hpb
  obtain ⟨hokt, hbt⟩ := packAppHeader_ok hpt
  have hb16 : b = (le32 h.magic
      ++ [h.headerVersion, h.deviceType, h.hwRevisionMin, h.hwRevisionMax,
          h.fwVersionMajor, h.fwVersionMinor, h.fwVersionPatch, h.fwFlags]
      ++ le32 h.fwSize)
      ++ (le32 h.fwCrc32
      ++ ((le32 h.fwLoadAddr ++ le32 h.buildTimestamp
          ++ (h.buildId.take 16 ++ List.replicate (16 - h.buildId.length) 0))
      ++ le32 h.headerCrc32)) := by
    rw [hbb]
    simp [packPrefix, List.append_assoc]
  have hstep1 : splice b 16 (le32 0xFFFFFFFF)
      = ((le32 h.magic
          ++ [h.headerVersion, h.deviceType, h.hwRevisionMin, h.hwRevisionMax,
              h.fwVersionMajor, h.fwVersionMinor, h.fwVersionPatch, h.fwFlags]
          ++ le32 h.fwSize)
        ++ le32 0xFFFFFFFF
        ++ (le32 h.fwLoadAddr ++ le32 h.buildTimestamp
            ++ (h.buildId.take 16 ++ List.replicate (16 - h.buildId.length) 0)))
        ++ le32 h.headerCrc32 := by
    show b.take 16 ++ le32 0xFFFFFFFF ++ b.drop (16 + (le32 0xFFFFFFFF).length) = _
    rw [show ((le32 (0xFFFFFFFF : Nat)).length : Nat) = 4 from rfl]
    rw [hb16, List.take_left' (by simp [le32]), drop_app_len (by simp [le32]),
      List.drop_left' (le32_length _)]
    simp [List.append_assoc]
  have hstep2 : splice (splice b 16 (le32 0xFFFFFFFF)) 44 (le32 0xFFFFFFFF)
      = ((le32 h.magic
          ++ [h.headerVersion, h.deviceType, h.hwRevisionMin, h.hwRevisionMax,
              h.fwVersionMajor, h.fwVersionMinor, h.fwVersionPatch, h.fwFlags]
          ++ le32 h.fwSize)
        ++ le32 0xFFFFFFFF
        ++ (le32 h.fwLoadAddr ++ le32 h.buildTimestamp
            ++ (h.buildId.take 16 ++ List.replicate (16 - h.buildId.length) 0)))
        ++ le32 0xFFFFFFFF := by
    show (splice b 16 (le32 0xFFFFFFFF)).take 44 ++ le32 0xFFFFFFFF
        ++ (splice b 16 (le32 0xFFFFFFFF)).drop (44 + (le32 0xFFFFFFFF).length) = _
    rw [show ((le32 (0xFFFFFFFF : Nat)).length : Nat) = 4 from rfl]
    rw [hstep1]
    have hlen44 : ((le32 h.magic
        ++ [h.headerVersion, h.deviceType, h.hwRevisionMin, h.hwRevisionMax,
            h.fwVersionMajor, h.fwVersionMinor, h.fwVersionPatch, h.fwFlags]
        ++ le32 h.fwSize)
        ++ le32 0xFFFFFFFF
        ++ (le32 h.fwLoadAddr ++ le32 h.buildTimestamp
            ++ (h.buildId.take 16 ++ List.replicate (16 - h.buildId.length) 0))).length
        = 44 := by
      simp [le32]
      omega
    rw [List.take_left' hlen44, drop_app_len hlen44]
    simp [le32]
  rw [hstep2, hbt]
  simp [packPrefix, List.append_assoc]

theorem patchBinary_some_intro {data : List Nat} {off : Nat}
    {tempBytes hdr2Bytes finalBytes : List Nat}
    (hscan : scanMagic data 0 = some off)
    (hlen : off + APP_HEADER_SIZE ≤ data.length)
    (htemp : packAppHeader { parseAppHeader ((data.drop off).take APP_HEADER_SIZE) with
        fwSize := data.length, fwCrc32 := 0xFFFFFFFF, headerCrc32 := 0xFFFFFFFF }
      = some tempBytes)
    (hhdr2 : packAppHeader { parseAppHeader ((data.drop off).take APP_HEADER_SIZE) with
        fwSize := data.length, fwCrc32 := crc32Script (splice data off tempBytes) }
      = some hdr2Bytes)
    (hfinal : packAppHeader { parseAppHeader ((data.drop off).take APP_HEADER_SIZE) with
        fwSize := data.length, fwCrc32 := crc32Script (splice data off tempBytes),
        headerCrc32 := crc32Script (hdr2Bytes.take 44) }
      = some finalBytes) :
    patchBinary data = some (splice data off finalBytes) := by
  unfold patchBinary
  rw [hscan]
  simp only []
  rw [if_neg (by omega : ¬ data.length < off + APP_HEADER_SIZE)]
  simp only [htemp, hhdr2, hfinal]

theorem window_take_four {X Y : List Nat} {off o2 : Nat}
    (h : X.take off = Y.take off) (h2 : o2 + 4 ≤ off) :
    (X.drop o2).take 4 = (Y.drop o2).take 4 := by
  have hX : (X.drop o2).take 4 = ((X.take off).drop o2).take 4 := by
    rw [List.drop_take, List.take_take, Nat.min_eq_left (by omega : 4 ≤ off - o2)]
  have hY : (Y.drop o2).take 4 = ((Y.take off).drop o2).take 4 := by
    rw [List.drop_take, List.take_take, Nat.min_eq_left (by omega : 4 ≤ off - o2)]
  rw [hX, hY, h]

/-- Running `patch_binary` on its own output reproduces that output:
    the patched header parses back to the patched values, the placeholder
    pass rebuilds the same temp image, and both CRCs come out unchanged. -/
theorem patchBinary_idem {data out : List Nat} (h : patchBinary data = some out) :
    patchBinary out = some out := by
  obtain ⟨off, tempBytes, hdr2Bytes, finalBytes, hscan, hlen, htemp, hhdr2, hfinal, hout⟩ :=
    patchBinary_some_elim h
  have hfb : finalBytes.length = 48 := packAppHeader_length hfinal
  have htb : tempBytes.length = 48 := packAppHeader_length htemp
  have hlen48 : off + 48 ≤ data.length := by simpa [APP_HEADER_SIZE] using hlen
  have hoffle : off ≤ data.length := by omega
  have houtlen : out.length = data.length := by
    rw [hout]
    exact splice_length (by omega : off + finalBytes.length ≤ data.length)
  have hwindow : (out.drop off).take APP_HEADER_SIZE = finalBytes := by
    rw [hout, show APP_HEADER_SIZE = finalBytes.length from by rw [hfb]; rfl]
    exact splice_slice hoffle
  set hdr0 := parseAppHeader ((data.drop off).take APP_HEADER_SIZE) with hhdr0
  have hbid_fix : rstripZeros hdr0.buildId = hdr0.buildId := by
    simp only [hhdr0, parseAppHeader]
    exact rstripZeros_idem _
  have hbid_len : hdr0.buildId.length ≤ 16 := by
    simp only [hhdr0, parseAppHeader]
    calc (rstripZeros ((((data.drop off).take APP_HEADER_SIZE).drop 28).take 16)).length
        ≤ ((((data.drop off).take APP_HEADER_SIZE).drop 28).take 16).length :=
          rstripZeros_length_le _
      _ ≤ 16 := by rw [List.length_take]; omega
  have hparse : parseAppHeader finalBytes = { hdr0 with
      fwSize := data.length,
      fwCrc32 := crc32Script (splice data off tempBytes),
      headerCrc32 := crc32Script (hdr2Bytes.take 44) } :=
    parse_pack hfinal hbid_fix hbid_len
  have hspec := scanMagic_some_spec data 0 off hscan
  have hal : off % 4 = 0 := by
    have := hspec.2.1
    omega
  have hmagic4 : (data.drop off).take 4 = APP_HEADER_MAGIC_BYTES := hspec.2.2.2.1
  have hmagic_val : hdr0.magic = APP_HEADER_MAGIC := by
    have hw4 : ((data.drop off).take APP_HEADER_SIZE).take 4 = [65, 71, 83, 89] := by
      rw [List.take_take, show min 4 APP_HEADER_SIZE = 4 from by decide, hmagic4]
      decide
    rw [hhdr0]
    show read32 ((data.drop off).take APP_HEADER_SIZE) 0 = APP_HEADER_MAGIC
    rw [read32_of_take4 hw4]
    decide
  have hm_out : (out.drop off).take 4 = APP_HEADER_MAGIC_BYTES := by
    have h1 : (out.drop off).take 4 = finalBytes.take 4 := by
      rw [← hwindow, List.take_take]
      norm_num [APP_HEADER_SIZE]
    rw [h1, (pack_fields hfinal).1]
    show le32 hdr0.magic = APP_HEADER_MAGIC_BYTES
    rw [hmagic_val]
    rfl
  have hpre : out.take off = data.take off := by
    rw [hout]
    exact splice_take hoffle
  have hscan_out : scanMagic out 0 = some off := by
    refine scanMagic_of out off (by rw [houtlen]; exact hlen) hm_out ?_ hal
    intro o2 hlt hal4 hcontra
    have h4le : o2 + 4 ≤ off := by omega
    have hww := window_take_four hpre h4le
    exact hspec.2.2.2.2 o2 (Nat.zero_le _) hlt (by omega) (hww ▸ hcontra)
  have hrec_temp : ({ parseAppHeader ((out.drop off).take APP_HEADER_SIZE) with
      fwSize := out.length, fwCrc32 := 0xFFFFFFFF, headerCrc32 := 0xFFFFFFFF } : AppHeader)
      = { hdr0 with
      fwSize := data.length, fwCrc32 := 0xFFFFFFFF, headerCrc32 := 0xFFFFFFFF } := by
    rw [hwindow, hparse, houtlen]
  have htemp_out : packAppHeader { parseAppHeader ((out.drop off).take APP_HEADER_SIZE) with
      fwSize := out.length, fwCrc32 := 0xFFFFFFFF, headerCrc32 := 0xFFFFFFFF }
      = some tempBytes := by
    rw [hrec_temp]
    exact htemp
  have hsplice_temp : splice out off tempBytes = splice data off tempBytes := by
    rw [hout]
    exact splice_splice (by rw [hfb, htb]) hoffle
  have hrec_hdr2 : ({ parseAppHeader ((out.drop off).take APP_HEADER_SIZE) with
      fwSize := out.length, fwCrc32 := crc32Script (splice out off tempBytes) } : AppHeader)
      = { hdr0 with
      fwSize := data.length,
      fwCrc32 := crc32Script (splice data off tempBytes),
      headerCrc32 := crc32Script (hdr2Bytes.take 44) } := by
    rw [hwindow, hparse, houtlen, hsplice_temp]
  have hhdr2_out : packAppHeader { parseAppHeader ((out.drop off).take APP_HEADER_SIZE) with
      fwSize := out.length, fwCrc32 := crc32Script (splice out off tempBytes) }
      = some finalBytes := by
    rw [hrec_hdr2]
    exact hfinal
  have hpp : finalBytes.take 44 = hdr2Bytes.take 44 := by
    rw [(pack_fields hfinal).2.2.2.2, (pack_fields hhdr2).2.2.2.2]
    rfl
  have hrec_final : ({ parseAppHeader ((out.drop off).take APP_HEADER_SIZE) with
      fwSize := out.length, fwCrc32 := crc32Script (splice out off tempBytes),
      headerCrc32 := crc32Script (finalBytes.take 44) } : AppHeader)
      = { hdr0 with
      fwSize := data.length,
      fwCrc32 := crc32Script (splice data off tempBytes),
      headerCrc32 := crc32Script (hdr2Bytes.take 44) } := by
    rw [hwindow, hparse, houtlen, hsplice_temp, hpp]
  have hfinal_out : packAppHeader { parseAppHeader ((out.drop off).take APP_HEADER_SIZE) with
      fwSize := out.length, fwCrc32 := crc32Script (splice out off tempBytes),
      headerCrc32 := crc32Script (finalBytes.take 44) }
      = some finalBytes := by
    rw [hrec_final]
    exact hfinal
  have hrun := patchBinary_some_intro hscan_out (by rw [houtlen]; exact hlen)
    htemp_out hhdr2_out hfinal_out
  rw [hrun, hout]
  exact congrArg some (splice_splice rfl hoffle)

theorem splice_mem {data repl : List Nat} {off x : Nat}
    (hx : x ∈ splice data off repl) : x ∈ data ∨ x ∈ repl := by
  unfold splice at hx
  rcases List.mem_append.mp hx with hx | hx
  · rcases List.mem_append.mp hx with hx | hx
    · exact Or.inl (List.mem_of_mem_take hx)
    · exact Or.inr hx
  · exact Or.inl (List.mem_of_mem_drop hx)

/-- The binary with both CRC fields of the header at `off` held at
    `0xFFFFFFFF` — the image over which `patch_binary` computes `fw_crc32`. -/
def withCrcFF (b : List Nat) (off : Nat) : List Nat :=
  splice (splice b (off + 16) (le32 0xFFFFFFFF)) (off + 44) (le32 0xFFFFFFFF)

theorem tempData_eq_withCrcFF {data tempBytes finalBytes : List Nat} {off : Nat}
    (hfb : finalBytes.length = 48)
    (htB : tempBytes
      = splice (splice finalBytes 16 (le32 0xFFFFFFFF)) 44 (le32 0xFFFFFFFF))
    (hoffle : off ≤ data.length) :
    splice data off tempBytes = withCrcFF (splice data off finalBytes) off := by
  subst htB
  unfold withCrcFF
  have h1 : (16 : Nat) + (le32 0xFFFFFFFF).length ≤ finalBytes.length := by
    rw [le32_length, hfb]
    omega
  have h2 : (44 : Nat) + (le32 0xFFFFFFFF).length
      ≤ (splice finalBytes 16 (le32 0xFFFFFFFF)).length := by
    rw [le32_length, splice_length h1, hfb]
  rw [splice_nest h1 hoffle, splice_nest h2 hoffle]

/-- C9: when `patch_binary` succeeds, the patched header records `fw_size`
    equal to the binary's total length, `fw_crc32` equal to the CRC-32 of the
    whole output with both CRC fields held at `0xFFFFFFFF`, and `header_crc32`
    equal to the CRC-32 of the final header's first 44 bytes; the script's
    nibble-table `crc32` agrees with the reference CRC-32 (reflected polynomial
    `0xEDB88320`, init and xor-out `0xFFFFFFFF`) on byte data, and running
    `patch_binary` again on the patched output yields it back unchanged. -/
theorem c9_patch_correct (data out : List Nat) (hbytes : ∀ b ∈ data, b < 256)
    (h : patchBinary data = some out) :
    (∀ l : List Nat, (∀ b ∈ l, b < 256) → crc32Script l = crc32Ref l)
    ∧ ∃ off, scanMagic data 0 = some off
      ∧ out.length = data.length
      ∧ read32 ((out.drop off).take APP_HEADER_SIZE) 12 = out.length
      ∧ read32 ((out.drop off).take APP_HEADER_SIZE) 16 = crc32Ref (withCrcFF out off)
      ∧ read32 ((out.drop off).take APP_HEADER_SIZE) 44 = crc32Ref ((out.drop off).take 44)
      ∧ patchBinary out = some out := by
  refine ⟨fun l hl => crc32Script_eq_ref l hl, ?_⟩
  obtain ⟨off, tempBytes, hdr2Bytes, finalBytes, hscan, hlen, htemp, hhdr2, hfinal, hout⟩ :=
    patchBinary_some_elim h
  have hfb : finalBytes.length = 48 := packAppHeader_length hfinal
  have htb : tempBytes.length = 48 := packAppHeader_length htemp
  have hlen48 : off + 48 ≤ data.length := by simpa [APP_HEADER_SIZE] using hlen
  have hoffle : off ≤ data.length := by omega
  have houtlen : out.length = data.length := by
    rw [hout]
    exact splice_length (by omega : off + finalBytes.length ≤ data.length)
  have hwindow : (out.drop off).take APP_HEADER_SIZE = finalBytes := by
    rw [hout, show APP_HEADER_SIZE = finalBytes.length from by rw [hfb]; rfl]
    exact splice_slice hoffle
  have htB : tempBytes
      = splice (splice finalBytes 16 (le32 0xFFFFFFFF)) 44 (le32 0xFFFFFFFF) :=
    pack_set_crcs hfinal htemp
  have htempdata : splice data off tempBytes = withCrcFF out off := by
    rw [hout]
    exact tempData_eq_withCrcFF hfb htB hoffle
  have htempbytes : ∀ b ∈ splice data off tempBytes, b < 256 := by
    intro b hb
    rcases splice_mem hb with hb | hb
    · exact hbytes b hb
    · exact packAppHeader_bytes htemp b hb
  have hfinalbytes : ∀ b ∈ finalBytes.take 44, b < 256 := fun b hb =>
    packAppHeader_bytes hfinal b (List.mem_of_mem_take hb)
  have hpp : finalBytes.take 44 = hdr2Bytes.take 44 := by
    rw [(pack_fields hfinal).2.2.2.2, (pack_fields hhdr2).2.2.2.2]
    rfl
  have hw44 : (out.drop off).take 44 = finalBytes.take 44 := by
    rw [← hwindow, List.take_take]
    norm_num [APP_HEADER_SIZE]
  refine ⟨off, hscan, houtlen, ?_, ?_, ?_, patchBinary_idem h⟩
  · rw [hwindow, houtlen]
    exact (pack_fields hfinal).2.1
  · rw [hwindow, ← htempdata, ← crc32Script_eq_ref _ htempbytes]
    exact (pack_fields hfinal).2.2.1
  · rw [hwindow, hw44, ← crc32Script_eq_ref _ hfinalbytes, hpp]
    exact (pack_fields hfinal).2.2.2.1

/-- Witness: `c9_patch_correct` applied to the concrete 64-byte image whose
    header sits at offset 8. -/
theorem c9_patch_correct_witness :
    (∀ b ∈ patchInput, b < 256)
    ∧ ((∀ l : List Nat, (∀ b ∈ l, b < 256) → crc32Script l = crc32Ref l)
      ∧ ∃ off, scanMagic patchInput 0 = some off
        ∧ patchOutput.length = patchInput.length
        ∧ read32 ((patchOutput.drop off).take APP_HEADER_SIZE) 12 = patchOutput.length
        ∧ read32 ((patchOutput.drop off).take APP_HEADER_SIZE) 16
            = crc32Ref (withCrcFF patchOutput off)
        ∧ read32 ((patchOutput.drop off).take APP_HEADER_SIZE) 44
            = crc32Ref ((patchOutput.drop off).take 44)
        ∧ patchBinary patchOutput = some patchOutput) :=
  ⟨by decide, c9_patch_correct patchInput patchOutput (by decide) (by decide)⟩

